import Mathlib

/-!
Branding utilities: token resolution and theme state.

A shallow embedding of `src/branding-utils.js` (class `BrandingManager`), and of the
frontmatter handling of `src/docs-publishing-service/examples/sdk/nodejs-example.js`.

Modelling conventions.

* The configuration is an untyped JavaScript value (`JSValue`): what `response.json()`
  yields, plus `undefined` for a property that is not there.
* An object is the list of its own enumerable properties in enumeration order
  (the order `Object.entries` walks: array indices in ascending order, then the other
  keys in the order they were added).
* A property read `object[key]` finds an own property first and then the members every
  object inherits from `Object.prototype` (`constructor`, `toString`, `__proto__`, ...):
  such a member is the value `JSValue.inherited key`, which is truthy.
* The inherited member `__proto__` is `Object.prototype` itself, whose own members are
  the inherited ones and whose prototype is `null`; the other inherited members are
  built-in functions.
* What a read finds on a string, an array, a number or a boolean under a key that is no
  index and not `length`, and what it finds on a built-in function, depends on the
  library of the engine: such a read ends as `JSError.unspecified`, which stands for
  an outcome that is not determined here, not for an exception.
* A numeric leaf is an integer of magnitude below `2^53`, which a template literal prints
  in full.
* Reading a property of `undefined` or `null` throws a `TypeError`; `throw new Error(msg)`
  is `JSError.error msg`. A method that can throw returns `Except JSError _`.
* `document.documentElement` and `localStorage` are the `Browser` record that the
  stateful methods thread through.
-/

set_option autoImplicit false

namespace Branding

/-- A JavaScript value as it occurs in a parsed configuration. -/
inductive JSValue where
  | undefined
  | null
  | bool (b : Bool)
  | num (n : Int)
  | str (s : String)
  | arr (items : List JSValue)
  | obj (props : List (String × JSValue))
  | inherited (name : String)

/-- The two kinds of exception the code can raise, and `unspecified` for a property read
whose outcome depends on the library of the engine. -/
inductive JSError where
  | typeError
  | error (message : String)
  | unspecified
  deriving DecidableEq

namespace JSValue

/-- JavaScript truthiness (`!v` is its negation, `a || b` picks `a` when it is truthy). -/
def truthy : JSValue → Bool
  | undefined => false
  | null => false
  | bool b => b
  | num n => n != 0
  | str s => s != ""
  | arr _ => true
  | obj _ => true
  | inherited _ => true

/-- The test `typeof v === 'object'`: true of `null`, arrays and objects; of the inherited
members, `__proto__` is an object (the prototype itself) and the others are functions. -/
def typeofObject : JSValue → Bool
  | null => true
  | arr _ => true
  | obj _ => true
  | inherited name => name == "__proto__"
  | _ => false

end JSValue

/-- First value stored under `key` in a property list. -/
def assoc (key : String) : List (String × JSValue) → Option JSValue
  | [] => none
  | (k, v) :: rest => if k = key then some v else assoc key rest

/-- Value of a decimal digit. -/
def digitValue (c : Char) : Option Nat :=
  if '0' ≤ c ∧ c ≤ '9' then some (c.toNat - '0'.toNat) else none

/-- Value of a run of decimal digits read after the value `acc`. -/
def digitsValue : List Char → Nat → Option Nat
  | [], acc => some acc
  | c :: rest, acc =>
    match digitValue c with
    | some d => digitsValue rest (10 * acc + d)
    | none => none

/-- The number a property key denotes, if it is a canonical numeric one (`"0"`, `"7"`,
`"12"`, but not `"07"`). -/
def arrayIndex (key : String) : Option Nat :=
  match key.data with
  | [] => none
  | [c] => digitValue c
  | c :: rest => if c = '0' then none else digitsValue (c :: rest) 0

/-- Names of the members every object inherits from `Object.prototype`. -/
def inheritedNames : List String :=
  ["constructor", "__defineGetter__", "__defineSetter__", "hasOwnProperty",
    "__lookupGetter__", "__lookupSetter__", "isPrototypeOf", "propertyIsEnumerable",
    "toString", "valueOf", "__proto__", "toLocaleString"]

/-- What a read of `key` finds past the own properties of an object: the inherited member
of that name, or `undefined`. -/
def inheritedMember (key : String) : JSValue :=
  if key ∈ inheritedNames then .inherited key else .undefined

/-- Property read `v[key]` with a string key. -/
def getProp (v : JSValue) (key : String) : Except JSError JSValue :=
  match v with
  | .undefined => .error .typeError
  | .null => .error .typeError
  | .bool _ => .error .unspecified
  | .num _ => .error .unspecified
  | .str s =>
    match arrayIndex key with
    | some i =>
      match s.data[i]? with
      | some c => .ok (.str (String.singleton c))
      | none => .ok .undefined
    | none => if key = "length" then .ok (.num s.length) else .error .unspecified
  | .arr items =>
    match arrayIndex key with
    | some i => .ok (items[i]?.getD .undefined)
    | none => if key = "length" then .ok (.num items.length) else .error .unspecified
  | .obj props => .ok ((assoc key props).getD (inheritedMember key))
  | .inherited name =>
    if name = "__proto__" then
      if key = "__proto__" then .ok .null else .ok (inheritedMember key)
    else .error .unspecified

/-- Optional chaining `v?.[key]`: `undefined` when `v` is `undefined` or `null`. -/
def getPropOptional (v : JSValue) (key : String) : Except JSError JSValue :=
  match v with
  | .undefined => .ok .undefined
  | .null => .ok .undefined
  | _ => getProp v key

/-- Property read `v[i]` with a non-negative integer key; no inherited member has such a
key. -/
def getIndex (v : JSValue) (i : Nat) : Except JSError JSValue :=
  match v with
  | .undefined => .error .typeError
  | .null => .error .typeError
  | .bool _ => .ok .undefined
  | .num _ => .ok .undefined
  | .str s =>
    match s.data[i]? with
    | some c => .ok (.str (String.singleton c))
    | none => .ok .undefined
  | .arr items => .ok (items[i]?.getD .undefined)
  | .obj props => .ok ((assoc (toString i) props).getD .undefined)
  | .inherited _ => .ok .undefined

mutual
/-- String conversion of a value, as a template literal performs it; an inherited function
is shown the way V8 prints a built-in. -/
def toStr : JSValue → String
  | .undefined => "undefined"
  | .null => "null"
  | .bool b => if b then "true" else "false"
  | .num n => toString n
  | .str s => s
  | .arr items => joinItems items
  | .obj _ => "[object Object]"
  | .inherited name =>
    if name = "__proto__" then "[object Object]"
    else "function " ++ (if name = "constructor" then "Object" else name)
      ++ "() \x7b [native code] \x7d"
/-- The `Array.prototype.join(',')` that converts an array: `null` and `undefined`
elements give the empty string. -/
def joinItems : List JSValue → String
  | [] => ""
  | .undefined :: [] => ""
  | .null :: [] => ""
  | x :: [] => toStr x
  | .undefined :: rest => "," ++ joinItems rest
  | .null :: rest => "," ++ joinItems rest
  | x :: rest => toStr x ++ "," ++ joinItems rest
end

/-- Pair every element of a list with its index rendered as a property key, from `start`. -/
def indexed {α : Type} (f : α → JSValue) : Nat → List α → List (String × JSValue)
  | _, [] => []
  | start, x :: rest => (toString start, f x) :: indexed f (start + 1) rest

/-- The `Object.entries(v)`: own enumerable properties in enumeration order. -/
def entries (v : JSValue) : Except JSError (List (String × JSValue)) :=
  match v with
  | .undefined => .error .typeError
  | .null => .error .typeError
  | .bool _ => .ok []
  | .num _ => .ok []
  | .str s => .ok (indexed (fun c => .str (String.singleton c)) 0 s.data)
  | .arr items => .ok (indexed id 0 items)
  | .obj props => .ok props
  | .inherited _ => .ok []

/-- Browser globals the class touches: the attributes of `document.documentElement`, the
calls made to `document.documentElement.style.setProperty` (oldest first), and the
content of `localStorage`. -/
structure Browser where
  attributes : List (String × String)
  styleCalls : List (String × JSValue)
  localStorage : List (String × String)

/-- Store `value` under `key`, replacing an earlier entry for the same key. -/
def setEntry (key value : String) : List (String × String) → List (String × String)
  | [] => [(key, value)]
  | (k, v) :: rest => if k = key then (key, value) :: rest else (k, v) :: setEntry key value rest

/-- Value stored under `key`, if any (`getItem`, `getAttribute`). -/
def getEntry (key : String) : List (String × String) → Option String
  | [] => none
  | (k, v) :: rest => if k = key then some v else getEntry key rest

/-- An instance of the class: the two fields the constructor sets. -/
structure BrandingManager where
  config : JSValue
  currentTheme : String

/-- What a stateful method leaves behind: how it ended, the instance and the browser. -/
structure Step where
  result : Except JSError Unit
  self : BrandingManager
  env : Browser

namespace BrandingManager

/-- The `constructor(config)`. -/
def new (config : JSValue) : BrandingManager :=
  { config := config, currentTheme := "light" }

/-- The `getTheme(themeName = this.currentTheme)`; `none` is an omitted argument. -/
def getTheme (self : BrandingManager) (themeName : Option String) : Except JSError JSValue := do
  let themes ← getProp self.config "themes"
  getProp themes (themeName.getD self.currentTheme)

/-- The message of the error `setTheme` throws. -/
def themeNotFound (themeName : String) : JSError :=
  .error ("Theme \"" ++ themeName ++ "\" not found")

/-- The `setTheme(themeName)`. -/
def setTheme (self : BrandingManager) (env : Browser) (themeName : String) : Step :=
  match getProp self.config "themes" >>= fun themes => getProp themes themeName with
  | .error e => { result := .error e, self := self, env := env }
  | .ok theme =>
    if !theme.truthy then
      { result := .error (themeNotFound themeName), self := self, env := env }
    else
      { result := .ok (),
        self := { self with currentTheme := themeName },
        env := { env with
          attributes := setEntry "data-theme" themeName env.attributes,
          localStorage := setEntry "theme" themeName env.localStorage } }

/-- The `getColor(colorName)`: `theme.colors[colorName] || null`. -/
def getColor (self : BrandingManager) (colorName : String) : Except JSError JSValue := do
  let theme ← getTheme self none
  let colors ← getProp theme "colors"
  let value ← getProp colors colorName
  if value.truthy then pure value else pure .null

/-- The `getTextColor(type = 'primary')`; `none` is an omitted argument. -/
def getTextColor (self : BrandingManager) (type : Option String) : Except JSError JSValue := do
  let theme ← getTheme self none
  let colors ← getProp theme "colors"
  let text ← getProp colors "text"
  let value ← getProp text (type.getD "primary")
  if value.truthy then pure value
  else do
    let colors ← getProp theme "colors"
    let text ← getProp colors "text"
    getProp text "primary"

/-- The `getPaletteColor(paletteName, colorName, shade = 2)`; `none` is an omitted shade. -/
def getPaletteColor (self : BrandingManager) (paletteName colorName : String)
    (shade : Option Nat) : Except JSError JSValue := do
  let colorPalettes ← getProp self.config "colorPalettes"
  let palette ← getProp colorPalettes paletteName
  if !palette.truthy then pure .null
  else do
    let color ← getProp palette colorName
    if !color.truthy then pure .null
    else do
      let color ← getProp palette colorName
      let value ← getIndex color (shade.getD 2)
      if value.truthy then pure value
      else do
        let color ← getProp palette colorName
        getIndex color 0

/-- The test `element.startsWith('h')`. -/
def startsWithH (element : String) : Bool :=
  match element.data with
  | c :: _ => c == 'h'
  | [] => false

/-- The `getTypography(element)`. -/
def getTypography (self : BrandingManager) (element : String) : Except JSError JSValue := do
  if startsWithH element then
    let typography ← getProp self.config "typography"
    let headings ← getProp typography "headings"
    getProp headings element
  else
    getProp self.config "typography"

/-- The `getSpacing(scale)`: `scale[key] || scale['0']`. -/
def getSpacing (self : BrandingManager) (scale : String) : Except JSError JSValue := do
  let spacing ← getProp self.config "spacing"
  let table ← getProp spacing "scale"
  let value ← getProp table scale
  if value.truthy then pure value
  else do
    let spacing ← getProp self.config "spacing"
    let table ← getProp spacing "scale"
    getProp table "0"


/-- The `getLayout(type)`. -/
def getLayout (self : BrandingManager) (type : String) : Except JSError JSValue := do
  let layout ← getProp self.config "layout"
  getProp layout type

/-- The `getContainer(size = 'xl')`; `none` is an omitted argument. -/
def getContainer (self : BrandingManager) (size : Option String) : Except JSError JSValue := do
  let layout ← getProp self.config "layout"
  let containers ← getProp layout "containers"
  getProp containers (size.getD "xl")

/-- The `getHyperlinkStyle(state = 'style')`; `none` is an omitted argument. -/
def getHyperlinkStyle (self : BrandingManager) (state : Option String) :
    Except JSError JSValue := do
  let hyperlinks ← getProp self.config "hyperlinks"
  getProp hyperlinks (state.getD "style")

/-- The `getNumbering(type)`. -/
def getNumbering (self : BrandingManager) (type : String) : Except JSError JSValue := do
  let numbering ← getProp self.config "numbering"
  getProp numbering type

/-- The `getImageryParameters(category, variant = 'standard')`; `none` is an omitted
variant. -/
def getImageryParameters (self : BrandingManager) (category : String)
    (variant : Option String) : Except JSError JSValue := do
  let imagery ← getProp self.config "imagery"
  let parameters ← getProp imagery "parameters"
  let entry ← getProp parameters category
  getPropOptional entry (variant.getD "standard")

/-- The `getImageryGuidelines(type)`. -/
def getImageryGuidelines (self : BrandingManager) (type : String) :
    Except JSError JSValue := do
  let imagery ← getProp self.config "imagery"
  let guidelines ← getProp imagery "guidelines"
  getProp guidelines type

/-- The `getBrandStyle()`. -/
def getBrandStyle (self : BrandingManager) : Except JSError JSValue := do
  let imagery ← getProp self.config "imagery"
  getProp imagery "brandStyle"

/-- The `getTopicStructure()`. -/
def getTopicStructure (self : BrandingManager) : Except JSError JSValue :=
  getProp self.config "topicChronology"

/-- The call `root.style.setProperty(name, value)`, appended to the call log. -/
def setProperty (env : Browser) (name : String) (value : JSValue) : Browser :=
  { env with styleCalls := env.styleCalls ++ [(name, value)] }

/-- Callback of the inner `forEach` of `applyTheme`: one write per nested key. -/
def writeNestedColor (key : String) (env : Browser) (sub : String × JSValue) : Browser :=
  setProperty env ("--color-" ++ key ++ "-" ++ sub.1) sub.2

/-- Callback of the outer `forEach` of `applyTheme`; the browser is returned as it stands
when the callback ends, normally or by a throw. -/
def writeColor (env : Browser) (kv : String × JSValue) : Except JSError Unit × Browser :=
  if kv.2.typeofObject then
    match entries kv.2 with
    | .error e => (.error e, env)
    | .ok subEntries => (.ok (), subEntries.foldl (writeNestedColor kv.1) env)
  else
    (.ok (), setProperty env ("--color-" ++ kv.1) kv.2)

/-- The outer `forEach` of `applyTheme`: the callback runs per entry until one throws. -/
def writeColors : List (String × JSValue) → Browser → Except JSError Unit × Browser
  | [], env => (.ok (), env)
  | kv :: rest, env =>
    match writeColor env kv with
    | (.error e, env1) => (.error e, env1)
    | (.ok _, env1) => writeColors rest env1

/-- The `applyTheme()`. -/
def applyTheme (self : BrandingManager) (env : Browser) : Step :=
  match (do
      let theme ← getTheme self none
      let colors ← getProp theme "colors"
      entries colors) with
  | .error e => { result := .error e, self := self, env := env }
  | .ok colorEntries =>
    { result := (writeColors colorEntries env).1, self := self,
      env := (writeColors colorEntries env).2 }

/-- Callback of the inner `forEach` of `generateCSS`: one line per nested key. -/
def appendNestedColor (key : String) (css : String) (sub : String × JSValue) : String :=
  css ++ ("  --color-" ++ key ++ "-" ++ sub.1 ++ ": " ++ toStr sub.2 ++ ";\n")

/-- Callback of the outer `forEach` of `generateCSS` over `Object.entries(theme.colors)`. -/
def appendColor (css : String) (kv : String × JSValue) : Except JSError String :=
  if kv.2.typeofObject then do
    let subEntries ← entries kv.2
    pure (subEntries.foldl (appendNestedColor kv.1) css)
  else
    pure (css ++ ("  --color-" ++ kv.1 ++ ": " ++ toStr kv.2 ++ ";\n"))

/-- Callback of the `forEach` of `generateCSS` over `Object.entries(spacing.scale)`. -/
def appendSpacing (css : String) (kv : String × JSValue) : String :=
  css ++ ("  --spacing-" ++ kv.1 ++ ": " ++ toStr kv.2 ++ ";\n")

/-- The `generateCSS()`. -/
def generateCSS (self : BrandingManager) : Except JSError String := do
  let theme ← getTheme self none
  let css := ":root \x7b\n"
  let colors ← getProp theme "colors"
  let colorEntries ← entries colors
  let css ← colorEntries.foldlM appendColor css
  let spacing ← getProp self.config "spacing"
  let scale ← getProp spacing "scale"
  let scaleEntries ← entries scale
  let css := scaleEntries.foldl appendSpacing css
  pure (css ++ "\x7d\n")

/-- The static `getSavedTheme()`: `localStorage.getItem('theme') || 'light'`. -/
def getSavedTheme (env : Browser) : String :=
  match getEntry "theme" env.localStorage with
  | some saved => if saved != "" then saved else "light"
  | none => "light"

/-- The `initializeTheme()`. -/
def initializeTheme (self : BrandingManager) (env : Browser) : Step :=
  setTheme self env (getSavedTheme env)

/-- The instances a caller can hold over `config`: the constructed one, and what a call of
`setTheme` or `initializeTheme` leaves, whether it returned or threw, whatever the
argument and whatever the browser holds at the call. -/
inductive Reachable (config : JSValue) : BrandingManager → Prop where
  | constructed : Reachable config (BrandingManager.new config)
  | afterSetTheme (self : BrandingManager) (env : Browser) (themeName : String) :
      Reachable config self → Reachable config (setTheme self env themeName).self
  | afterInitializeTheme (self : BrandingManager) (env : Browser) :
      Reachable config self → Reachable config (initializeTheme self env).self

end BrandingManager

/-! ## Numbers

A JavaScript number that is finite is the rational number it denotes. Every arithmetic
operation computes the exact result and rounds it to the nearest double, ties to even
(`Double.round`); a decimal literal denotes its nearest double. Overflow to `Infinity` is
not represented: every quantity of the contrast computation is bounded by 21.
`Math.pow` is left to the engine by the language standard and is a parameter of the
functions that call it. -/

namespace Double

/-- Nearest integer, ties to the even one. -/
def roundHalfEven (x : ℚ) : ℤ :=
  if x - ⌊x⌋ < 1 / 2 then ⌊x⌋
  else if 1 / 2 < x - ⌊x⌋ then ⌊x⌋ + 1
  else if ⌊x⌋ % 2 = 0 then ⌊x⌋ else ⌊x⌋ + 1

/-- Binary exponent of the spacing of the doubles around `q`: 53 significant bits, and the
fixed spacing `2 ^ (-1074)` of the subnormal range. -/
def ulpExp (q : ℚ) : ℤ :=
  max (Int.log 2 |q| - 52) (-1074)

/-- The double nearest to `q`, ties to even. -/
def round (q : ℚ) : ℚ :=
  roundHalfEven (q / 2 ^ ulpExp q) * 2 ^ ulpExp q

/-- The sum `a + b` of two numbers. -/
def add (a b : ℚ) : ℚ := round (a + b)

/-- The product `a * b` of two numbers. -/
def mul (a b : ℚ) : ℚ := round (a * b)

/-- The quotient `a / b` of two numbers, for a divisor that is not zero. -/
def div (a b : ℚ) : ℚ := round (a / b)

/-- Two decimal digits for a number below one hundred. -/
def twoDigits (n : Nat) : String :=
  if n < 10 then "0" ++ toString n else toString n

/-- The `x.toFixed(2)`: the integer `n` nearest to `100 * |x|`, the larger one on a tie,
written with a decimal point before its last two digits, after a minus sign when
`x < 0`. -/
def toFixed2 (x : ℚ) : String :=
  let n := ⌊|x| * 100 + 1 / 2⌋.toNat
  let body := toString (n / 100) ++ "." ++ twoDigits (n % 100)
  if x < 0 then "-" ++ body else body

end Double

/-! ## Colour contrast -/

/-- The object `{ r, g, b }` that `hexToRgb` builds. -/
structure RGB where
  r : Nat
  g : Nat
  b : Nat
  deriving DecidableEq

/-- What `checkColorContrast` returns: `{ error }` or `{ ratio, AA, AAA, AALarge, AAALarge }`. -/
inductive ContrastResult where
  | error (message : String)
  | report (ratio : String) (AA AAA AALarge AAALarge : Bool)
  deriving DecidableEq

/-- Value of a character matched by the class `[a-f\d]` under the flag `i`, as
`parseInt(_, 16)` reads it; `none` when the class does not match the character. -/
def hexDigit (c : Char) : Option Nat :=
  if '0' ≤ c ∧ c ≤ '9' then some (c.toNat - '0'.toNat)
  else if 'a' ≤ c ∧ c ≤ 'f' then some (c.toNat - 'a'.toNat + 10)
  else if 'A' ≤ c ∧ c ≤ 'F' then some (c.toNat - 'A'.toNat + 10)
  else none

/-- The three groups `([a-f\d]{2})([a-f\d]{2})([a-f\d]{2})$` and their `parseInt(_, 16)`. -/
def matchHexGroups (cs : List Char) : Option RGB :=
  match cs with
  | [r1, r2, g1, g2, b1, b2] => do
    let r1 ← hexDigit r1
    let r2 ← hexDigit r2
    let g1 ← hexDigit g1
    let g2 ← hexDigit g2
    let b1 ← hexDigit b1
    let b2 ← hexDigit b2
    pure { r := 16 * r1 + r2, g := 16 * g1 + g2, b := 16 * b1 + b2 }
  | _ => none

/-- The inner `hexToRgb`: the pattern is anchored at both ends and `#?` takes a leading
`#`; `none` is the `null` of a failed match. -/
def hexToRgb (hex : String) : Option RGB :=
  match hex.data with
  | '#' :: rest => matchHexGroups rest
  | cs => matchHexGroups cs

/-- The callback of the `map` in `getLuminance`, for one channel. -/
def linearize (pow : ℚ → ℚ → ℚ) (val : ℚ) : ℚ :=
  let val := Double.div val 255
  if val ≤ Double.round (3928 / 100000) then Double.div val (Double.round (1292 / 100))
  else pow (Double.div (Double.add val (Double.round (55 / 1000))) (Double.round (1055 / 1000)))
    (Double.round (24 / 10))

/-- The inner `getLuminance`. -/
def getLuminance (pow : ℚ → ℚ → ℚ) (rgb : RGB) : ℚ :=
  let r := linearize pow rgb.r
  let g := linearize pow rgb.g
  let b := linearize pow rgb.b
  Double.add
    (Double.add (Double.mul (Double.round (2126 / 10000)) r)
      (Double.mul (Double.round (7152 / 10000)) g))
    (Double.mul (Double.round (722 / 10000)) b)

/-- The `ratio` of `checkColorContrast` for two parsed colours. -/
def contrastRatio (pow : ℚ → ℚ → ℚ) (fg bg : RGB) : ℚ :=
  let l1 := getLuminance pow fg
  let l2 := getLuminance pow bg
  Double.div (Double.add (max l1 l2) (Double.round (5 / 100)))
    (Double.add (min l1 l2) (Double.round (5 / 100)))

/-- The object `checkColorContrast` returns for a ratio. -/
def classifyContrast (ratio : ℚ) : ContrastResult :=
  .report (Double.toFixed2 ratio) (decide (9 / 2 ≤ ratio)) (decide (7 ≤ ratio))
    (decide (3 ≤ ratio)) (decide (9 / 2 ≤ ratio))

/-- The static `checkColorContrast(foreground, background)`. -/
def checkColorContrast (pow : ℚ → ℚ → ℚ) (foreground background : String) : ContrastResult :=
  match hexToRgb foreground, hexToRgb background with
  | some fg, some bg => classifyContrast (contrastRatio pow fg bg)
  | _, _ => .error "Invalid color format"

/-! ## Publishing client

A shallow embedding of `DocsPublishingClient.extractFrontmatter` and of the request object
`DocsPublishingClient.publishFile` hands to `publish`
(`src/docs-publishing-service/examples/sdk/nodejs-example.js`). The file content and the
base name of the file come from `fs` and `path` and are parameters. -/

/-- The line feed character. -/
def newline : Char := Char.ofNat 10

/-- The double quote character. -/
def doubleQuote : Char := Char.ofNat 34

/-- The single quote character. -/
def singleQuote : Char := Char.ofNat 39

/-- Characters `String.prototype.trim` removes: white space and line terminators. -/
def isTrimmed (c : Char) : Bool :=
  c.toNat = 9 || c.toNat = 10 || c.toNat = 11 || c.toNat = 12 || c.toNat = 13
    || c.toNat = 32 || c.toNat = 160 || c.toNat = 5760
    || (8192 ≤ c.toNat && c.toNat ≤ 8202)
    || c.toNat = 8232 || c.toNat = 8233 || c.toNat = 8239 || c.toNat = 8287
    || c.toNat = 12288 || c.toNat = 65279

/-- The `s.trim()`. -/
def trim (s : List Char) : List Char :=
  ((s.dropWhile isTrimmed).reverse.dropWhile isTrimmed).reverse

/-- The `s.substring(start, end)`: both bounds are clamped to the length and swapped when
out of order. -/
def substring (s : List Char) (start stop : Nat) : List Char :=
  let a := min start s.length
  let b := min stop s.length
  (s.drop (min a b)).take (max a b - min a b)

/-- The `s.split('\n')`. -/
def splitLines : List Char → List (List Char)
  | [] => [[]]
  | c :: rest =>
    if c = newline then [] :: splitLines rest
    else
      match splitLines rest with
      | line :: lines => (c :: line) :: lines
      | [] => [[c]]

/-- The `line.indexOf(':')`, with `none` for `-1`. -/
def indexOfColon : List Char → Option Nat
  | [] => none
  | c :: rest => if c = ':' then some 0 else (indexOfColon rest).map (· + 1)

/-- The group `([\s\S]*?)` of the frontmatter pattern: the shortest text followed by a line
feed and three dashes. -/
def untilFence : List Char → Option (List Char)
  | [] => none
  | c :: rest =>
    if [newline, '-', '-', '-'].isPrefixOf (c :: rest) then some []
    else (untilFence rest).map (c :: ·)

/-- The `content.match(frontmatterRegex)`, reduced to its group 1: the pattern asks for
three dashes and a line feed at the start of the content, then the group, then a line feed
and three dashes. -/
def matchFrontmatter (content : List Char) : Option (List Char) :=
  if ['-', '-', '-', newline].isPrefixOf content then untilFence (content.drop 4) else none

/-- The array index a property key denotes: a canonical numeric key below `2^32 - 1`. Own
properties with such keys are enumerated first, in ascending order. -/
def indexKey (key : String) : Option Nat :=
  match arrayIndex key with
  | some n => if n < 4294967295 then some n else none
  | none => none

/-- Overwrite the property `key` where it stands. -/
def replaceProp (key : String) (value : JSValue) :
    List (String × JSValue) → List (String × JSValue)
  | [] => []
  | (k, v) :: rest =>
    if k = key then (key, value) :: rest else (k, v) :: replaceProp key value rest

/-- Add the property with array index `i` at its place in the enumeration order: after the
array indices below `i`. -/
def insertIndexProp (i : Nat) (key : String) (value : JSValue) :
    List (String × JSValue) → List (String × JSValue)
  | [] => [(key, value)]
  | (k, v) :: rest =>
    match indexKey k with
    | some j =>
      if j < i then (k, v) :: insertIndexProp i key value rest
      else (key, value) :: (k, v) :: rest
    | none => (key, value) :: (k, v) :: rest

/-- Definition of the own property `key` (an entry of an object literal or of a spread, or
an assignment that reaches the object itself): an existing property is overwritten where it
stands, a new one takes its place in the enumeration order. -/
def setProp (key : String) (value : JSValue) (props : List (String × JSValue)) :
    List (String × JSValue) :=
  if (assoc key props).isSome then replaceProp key value props
  else
    match indexKey key with
    | some i => insertIndexProp i key value props
    | none => props ++ [(key, value)]

/-- Assignment `object[key] = value` of a string to a plain object. The key `__proto__`,
when it is no own property, reaches the setter the object inherits, which ignores a value
that is neither an object nor `null`: no property is made. -/
def assignString (key value : String) (props : List (String × JSValue)) :
    List (String × JSValue) :=
  if key = "__proto__" ∧ (assoc key props).isNone then props
  else setProp key (.str value) props

/-- The operator `a || b` on values that are already computed. -/
def orElse (a b : JSValue) : JSValue :=
  if a.truthy then a else b

namespace DocsPublishingClient

/-- The removal of surrounding quotes in `extractFrontmatter`. -/
def unquote (value : List Char) : List Char :=
  if (value.head? = some doubleQuote ∧ value.getLast? = some doubleQuote)
      ∨ (value.head? = some singleQuote ∧ value.getLast? = some singleQuote) then
    substring value 1 (value.length - 1)
  else value

/-- Callback of the `forEach` over the lines in `extractFrontmatter`. -/
def addLine (metadata : List (String × JSValue)) (line : List Char) :
    List (String × JSValue) :=
  match indexOfColon line with
  | none => metadata
  | some colonIndex =>
    if 0 < colonIndex ∧ (trim line).head? ≠ some '#' then
      let key := trim (substring line 0 colonIndex)
      let value := unquote (trim (substring line (colonIndex + 1) line.length))
      assignString (String.mk key) (String.mk value) metadata
    else metadata

/-- The `extractFrontmatter(content)`: the properties of the object it returns. -/
def extractFrontmatter (content : String) : List (String × JSValue) :=
  match matchFrontmatter content.data with
  | none => []
  | some frontmatter => (splitLines frontmatter).foldl addLine []

/-- Properties an object spread `...v` copies: none for `undefined` and `null`. -/
def spread (v : JSValue) : List (String × JSValue) :=
  match entries v with
  | .ok props => props
  | .error _ => []

/-- The object `publishFile(filePath, options)` passes to `publish`, for the content read
from the file and the base name of the file. -/
def publishFile (config : JSValue) (content fileName : String) (options : JSValue) :
    Except JSError JSValue := do
  let metadata := extractFrontmatter content
  let format := orElse (← getProp options "format") (.str "markdown")
  let optionBrand ← getProp options "brand"
  let brand ← if optionBrand.truthy then pure optionBrand else getProp config "brand"
  let category := orElse (← getProp options "category")
    (orElse ((assoc "category" metadata).getD .undefined) (.str "general"))
  let title := orElse (← getProp options "title")
    (orElse ((assoc "title" metadata).getD .undefined) (.str fileName))
  let author := orElse (← getProp options "author") ((assoc "author" metadata).getD .undefined)
  let version := orElse (← getProp options "version")
    (orElse ((assoc "version" metadata).getD .undefined) (.str "1.0.0"))
  let requestMetadata := metadata.foldl (fun object kv => setProp kv.1 kv.2 object)
    [("title", title), ("author", author), ("version", version)]
  let publishOptions ← getProp options "publishOptions"
  let requestOptions := (spread publishOptions).foldl (fun object kv => setProp kv.1 kv.2 object)
    [("validate", .bool true), ("transform", .bool true), ("publish", .bool true)]
  pure (.obj [("content", .str content), ("format", format), ("brand", brand),
    ("category", category), ("metadata", .obj requestMetadata),
    ("options", .obj requestOptions)])

end DocsPublishingClient

/-! ## The serialised form, as the specification words it -/

namespace Spec

/-- A top-level entry of a theme's colour tree: a plain value or one level of nesting. -/
inductive ColorEntry where
  | plain (value : String)
  | group (nested : List (String × String))

/-- The configuration value a colour entry stands for. -/
def ColorEntry.toJS : ColorEntry → JSValue
  | .plain value => .str value
  | .group nested => .obj (nested.map fun kv => (kv.1, .str kv.2))

/-- The property of `theme.colors` a named colour entry stands for. -/
def colorProp (kv : String × ColorEntry) : String × JSValue :=
  (kv.1, kv.2.toJS)

/-- Concatenation of a sequence of text pieces, in order. -/
def concat : List String → String
  | [] => ""
  | piece :: rest => piece ++ concat rest

/-- One emitted line: two spaces, `--`, the entry name, a colon, the value, a semicolon. -/
def line (name value : String) : String :=
  "  --" ++ name ++ ": " ++ value ++ ";
"

/-- Lines of one top-level colour key: `color-<key>` for a plain value, one
`color-<key>-<subKey>` per nested key for a mapping. -/
def colorLines (kv : String × ColorEntry) : List String :=
  match kv.2 with
  | .plain value => [line ("color-" ++ kv.1) value]
  | .group nested => nested.map fun sub => line ("color-" ++ kv.1 ++ "-" ++ sub.1) sub.2

/-- The line of one spacing-scale key: `spacing-<key>`, with the value as text. -/
def spacingLine (kv : String × JSValue) : String :=
  line ("spacing-" ++ kv.1) (toStr kv.2)

/-- One line of the serialised text for a write `(name, value)` to the style target: two
spaces, the property name, a colon, the value as text, a semicolon. -/
def lineOfWrite (write : String × JSValue) : String :=
  "  " ++ write.1 ++ ": " ++ toStr write.2 ++ ";\n"

/-- A hexadecimal digit, upper or lower case. -/
def isHexDigit (c : Char) : Bool :=
  c.isDigit || ('a' ≤ c && c ≤ 'f') || ('A' ≤ c && c ≤ 'F')

/-- Exactly six hexadecimal digits. -/
def sixHexDigits (cs : List Char) : Bool :=
  cs.length == 6 && cs.all isHexDigit

/-- A colour value as the specification accepts it: six hexadecimal digits, upper or lower
case, after an optional single leading `#`. -/
def isHexColor (s : String) : Bool :=
  sixHexDigits s.data ||
    match s.data with
    | '#' :: rest => sixHexDigits rest
    | _ => false

/-- The text `serialize()` is to return for a colour tree and a spacing scale. -/
def serialize (colors : List (String × ColorEntry)) (scale : List (String × JSValue)) : String :=
  ":root \x7b\n" ++ concat (colors.map fun kv => concat (colorLines kv))
    ++ concat (scale.map spacingLine) ++ "\x7d\n"

end Spec

/-! ## The frontmatter block, in words -/

namespace Spec

/-- What opens a frontmatter block: three dashes and a line feed. -/
def fenceOpen : List Char := ['-', '-', '-', newline]

/-- What closes a frontmatter block: a line feed and three dashes. -/
def fenceClose : List Char := [newline, '-', '-', '-']

/-- The text `block` is the frontmatter block of `content`: the content is the line `---`,
then the block, then a line that starts with `---`, then anything; and the block is the
shortest text for which this holds. -/
def IsBlock (content block : List Char) : Prop :=
  (∃ rest, content = fenceOpen ++ block ++ fenceClose ++ rest)
    ∧ ∀ block2 rest2, content = fenceOpen ++ block2 ++ fenceClose ++ rest2
        → block.length ≤ block2.length

/-- Lines put together again, a line feed between two of them. -/
def joinLines : List (List Char) → List Char
  | [] => []
  | [line] => line
  | line :: rest => line ++ newline :: joinLines rest

/-- The list `lines` is the text `block` cut at its line feeds. -/
def IsLines (block : List Char) (lines : List (List Char)) : Prop :=
  lines ≠ [] ∧ joinLines lines = block ∧ ∀ line ∈ lines, newline ∉ line

/-- The line has a colon at a position greater than 0 and is not a `#` comment; `key` is
the trimmed text before its first colon and `raw` the text after that colon. -/
def IsEntryLine (line : List Char) (key : String) (raw : List Char) : Prop :=
  ∃ before, line = before ++ ':' :: raw ∧ ':' ∉ before ∧ before ≠ []
    ∧ (trim line).head? ≠ some '#' ∧ key = String.mk (trim before)

/-- The call that asks `mapping` for the entry `key` ended as `result`, the way an accessor
of optional decoration is to end: it did not throw, it returned the entry when `key` is a
key of the mapping, and it returned `undefined` when `key` is neither a key of the mapping
nor the name of a member every object inherits. -/
def LooksUp (mapping : List (String × JSValue)) (key : String)
    (result : Except JSError JSValue) : Prop :=
  (∃ r, result = .ok r)
    ∧ (∀ v, assoc key mapping = some v → result = .ok v)
    ∧ (assoc key mapping = none → key ∉ inheritedNames → result = .ok .undefined)

end Spec

/-! ## Shapes of configuration entries -/

/-- A design-token leaf: a non-empty string (a colour value, a dimension). -/
def isToken : JSValue → Bool
  | .str s => s != ""
  | _ => false

/-- A shade sequence: an array of token leaves. -/
def isShadeList : JSValue → Bool
  | .arr shades => shades.all isToken
  | _ => false

/-- A palette: a mapping from colour names to shade sequences. -/
def isPalette : JSValue → Bool
  | .obj colors => colors.all fun kv => isShadeList kv.2
  | _ => false

/-- The `colorPalettes` section: a mapping from palette names to palettes. -/
def wfPalettes (palettes : List (String × JSValue)) : Bool :=
  palettes.all fun kv => isPalette kv.2

/-! ## Example configurations -/

/-- A theme object with the colour tree of the serialisation example. -/
def exampleTheme : JSValue :=
  .obj [("colors", .obj [("primary", .str "#111111"),
    ("text", .obj [("primary", .str "#222222"), ("secondary", .str "#333333")])])]

/-- A configuration that declares the themes `light` and `dark`. -/
def exampleConfig : JSValue :=
  .obj [("themes", .obj [("light", exampleTheme), ("dark", exampleTheme)]),
    ("colorPalettes", .obj [("brand", .obj [("blue",
      .arr [.str "#e6f0ff", .str "#99c2ff", .str "#0066ff"])])]),
    ("typography", .obj [("fontFamilies", .obj [("primary", .str "Inter")]),
      ("headings", .obj [("h1", .obj [("fontSize", .str "2rem")])])]),
    ("spacing", .obj [("scale", .obj [("0", .str "0rem"), ("4", .str "1rem")])])]

/-- A configuration with the decoration sections, whose `layout` has no `containers`. -/
def decoratedConfig : JSValue :=
  .obj [("layout", .obj [("header", .obj [("height", .str "64px")])]),
    ("hyperlinks", .obj [("style", .obj [("color", .str "#0066ff")])]),
    ("numbering", .obj [("lists", .obj [("style", .str "decimal")])]),
    ("imagery", .obj [("parameters", .obj [("lens", .obj [("standard", .str "50mm")])]),
      ("guidelines", .obj [("formats", .arr [.str "webp"])]),
      ("brandStyle", .obj [("mood", .str "calm")])]),
    ("topicChronology", .obj [("order", .arr [.str "intro"])])]

/-- The same configuration with a `containers` entry in `layout`. -/
def containerConfig : JSValue :=
  .obj [("layout", .obj [("containers", .obj [("xl", .str "1280px")])]),
    ("hyperlinks", .obj [("style", .obj [("color", .str "#0066ff")])]),
    ("numbering", .obj [("lists", .obj [("style", .str "decimal")])]),
    ("imagery", .obj [("parameters", .obj [("lens", .obj [("standard", .str "50mm")])]),
      ("guidelines", .obj [("formats", .arr [.str "webp"])]),
      ("brandStyle", .obj [("mood", .str "calm")])]),
    ("topicChronology", .obj [("order", .arr [.str "intro"])])]

/-- A markdown file whose frontmatter gives a title and an author. -/
def fileWithFrontmatter : String :=
  "---\ntitle: From File\nauthor: \"File Author\"\n---\n# Getting started\n"

/-- The options of a caller who supplies a title and an author. -/
def optionsWithTitle : JSValue :=
  .obj [("title", .str "From Option"), ("author", .str "John Doe")]

/-- The client configuration. -/
def clientConfig : JSValue :=
  .obj [("apiUrl", .str "https://api.docs-publishing.example.com/v1"),
    ("apiKey", .str "key"), ("brand", .str "example-brand")]

/-- A file whose frontmatter is closed by a line that only starts with three dashes. -/
def fileClosedByRule : String :=
  "---\ntitle: Guide\n---draft\n"

/-- A file whose frontmatter has a value that is a lone double quote. -/
def fileWithLoneQuote : String :=
  "---\nk: \"\n---\n"

/-- A file whose line after the opening one is `---` as well. -/
def fileWithEarlyDashes : String :=
  "---\n---\ntitle: Guide\n---\n"

/-- A file whose frontmatter has one line, with the key `__proto__`. -/
def fileWithProtoKey : String :=
  "---\n__proto__: x\n---\n"

/-- A configuration that declares the theme `dark` only. -/
def darkOnlyConfig : JSValue :=
  .obj [("themes", .obj [("dark", exampleTheme)])]

/-- A browser with nothing stored. -/
def emptyBrowser : Browser :=
  { attributes := [], styleCalls := [], localStorage := [] }

/-- A browser whose stored preference names `neon`, a theme no example declares. -/
def neonBrowser : Browser :=
  { attributes := [], styleCalls := [], localStorage := [("theme", "neon")] }

/-- A browser whose stored preference names `toString`, a theme no example declares. -/
def toStringBrowser : Browser :=
  { attributes := [], styleCalls := [], localStorage := [("theme", "toString")] }

/-- A browser whose stored preference names `dark`. -/
def darkBrowser : Browser :=
  { attributes := [], styleCalls := [], localStorage := [("theme", "dark")] }

/-- The fresh instance over `exampleConfig`, after a successful `setTheme('dark')`. -/
def darkManager : BrandingManager :=
  { config := exampleConfig, currentTheme := "dark" }

/-- An instance over `darkOnlyConfig` whose active theme is `dark`. -/
def darkOnlyManager : BrandingManager :=
  { config := darkOnlyConfig, currentTheme := "dark" }

/-! ## Lemmas on the stores -/

theorem getEntry_setEntry (key value : String) (store : List (String × String)) :
    getEntry key (setEntry key value store) = some value := by
  induction store with
  | nil => simp [setEntry, getEntry]
  | cons kv rest ih =>
    obtain ⟨k, v⟩ := kv
    by_cases h : k = key
    · simp [setEntry, getEntry, h]
    · simp [setEntry, getEntry, h, ih]

/-! ## Lemmas on property reads -/

theorem getProp_obj (props : List (String × JSValue)) (key : String) :
    getProp (.obj props) key = .ok ((assoc key props).getD (inheritedMember key)) := rfl

theorem inheritedMember_of_not_mem {key : String} (h : key ∉ inheritedNames) :
    inheritedMember key = .undefined := by
  simp [inheritedMember, h]

theorem inheritedMember_of_mem {key : String} (h : key ∈ inheritedNames) :
    inheritedMember key = .inherited key := by
  simp [inheritedMember, h]

theorem inheritedMember_truthy {key : String} (h : key ∈ inheritedNames) :
    (inheritedMember key).truthy = true := by
  simp [inheritedMember_of_mem h, JSValue.truthy]

theorem getProp_of_own {props : List (String × JSValue)} {key : String} {v : JSValue}
    (h : assoc key props = some v) : getProp (.obj props) key = .ok v := by
  simp [getProp_obj, h]

theorem getProp_of_missing {props : List (String × JSValue)} {key : String}
    (h : assoc key props = none) (hkey : key ∉ inheritedNames) :
    getProp (.obj props) key = .ok .undefined := by
  simp [getProp_obj, h, inheritedMember_of_not_mem hkey]

theorem getIndex_arr (items : List JSValue) (i : Nat) :
    getIndex (.arr items) i = .ok (items[i]?.getD .undefined) := rfl

theorem assoc_mem {key : String} {props : List (String × JSValue)} {v : JSValue}
    (h : assoc key props = some v) : (key, v) ∈ props := by
  induction props with
  | nil => simp [assoc] at h
  | cons kv rest ih =>
    obtain ⟨k, w⟩ := kv
    by_cases hk : k = key
    · simp [assoc, hk] at h
      simp [hk, h]
    · simp [assoc, hk] at h
      exact List.mem_cons_of_mem _ (ih h)

theorem truthy_of_isToken {v : JSValue} (h : isToken v = true) : v.truthy = true := by
  cases v <;> simp_all [isToken, JSValue.truthy]

theorem ne_null_of_isToken {v : JSValue} (h : isToken v = true) : v ≠ .null := by
  intro hv
  subst hv
  simp [isToken] at h

theorem ne_undefined_of_isToken {v : JSValue} (h : isToken v = true) : v ≠ .undefined := by
  intro hv
  subst hv
  simp [isToken] at h

theorem isPalette_of_wfPalettes {palettes : List (String × JSValue)} {name : String}
    {palette : JSValue} (hwf : wfPalettes palettes = true)
    (h : assoc name palettes = some palette) : isPalette palette = true := by
  have hall := List.all_eq_true.mp hwf
  exact hall _ (assoc_mem h)

theorem isShadeList_of_isPalette {colors : List (String × JSValue)} {name : String}
    {color : JSValue} (hwf : isPalette (.obj colors) = true)
    (h : assoc name colors = some color) : isShadeList color = true := by
  have hall := List.all_eq_true.mp hwf
  exact hall _ (assoc_mem h)

theorem startsWithH_iff (element : String) :
    BrandingManager.startsWithH element = true ↔ ∃ rest : String, element = "h" ++ rest := by
  obtain ⟨data⟩ := element
  constructor
  · intro h
    cases data with
    | nil => simp [BrandingManager.startsWithH] at h
    | cons c cs =>
      have hc : c = 'h' := by simpa [BrandingManager.startsWithH] using h
      subst hc
      exact ⟨⟨cs⟩, rfl⟩
  · rintro ⟨⟨rest⟩, h⟩
    have hd : data = 'h' :: rest := congrArg String.data h
    subst hd
    rfl

/-! ## Theme state -/

open BrandingManager

/-- The rejecting path of `setTheme`, as one equation: the name is no key of
`config.themes` and no name of an inherited member. -/
theorem setTheme_of_absent (self : BrandingManager) (env : Browser) (themeName : String)
    (themes : List (String × JSValue))
    (hthemes : getProp self.config "themes" = .ok (.obj themes))
    (hnot : assoc themeName themes = none)
    (hname : themeName ∉ inheritedNames) :
    setTheme self env themeName
      = { result := .error (themeNotFound themeName), self := self, env := env } := by
  unfold setTheme
  rw [hthemes]
  simp [bind, Except.bind, getProp_of_missing hnot hname, JSValue.truthy]

/-- The path of `setTheme` for the name of an inherited member that is no key of
`config.themes`: the read is truthy and the name is committed. -/
theorem setTheme_of_inherited (self : BrandingManager) (env : Browser) (themeName : String)
    (themes : List (String × JSValue))
    (hthemes : getProp self.config "themes" = .ok (.obj themes))
    (hnot : assoc themeName themes = none)
    (hname : themeName ∈ inheritedNames) :
    setTheme self env themeName
      = { result := .ok (),
          self := { config := self.config, currentTheme := themeName },
          env := { attributes := setEntry "data-theme" themeName env.attributes,
                   styleCalls := env.styleCalls,
                   localStorage := setEntry "theme" themeName env.localStorage } } := by
  unfold setTheme
  rw [hthemes]
  simp [bind, Except.bind, getProp_obj, hnot, inheritedMember_of_mem hname, JSValue.truthy]

/-- The committing path of `setTheme`, as one equation. -/
theorem setTheme_of_object (self : BrandingManager) (env : Browser) (themeName : String)
    (themes theme : List (String × JSValue))
    (hthemes : getProp self.config "themes" = .ok (.obj themes))
    (hkey : assoc themeName themes = some (.obj theme)) :
    setTheme self env themeName
      = { result := .ok (),
          self := { config := self.config, currentTheme := themeName },
          env := { attributes := setEntry "data-theme" themeName env.attributes,
                   styleCalls := env.styleCalls,
                   localStorage := setEntry "theme" themeName env.localStorage } } := by
  unfold setTheme
  rw [hthemes]
  simp [bind, Except.bind, getProp_obj, hkey, JSValue.truthy]

/-- The guard of `setTheme` on the names it does reject: when `config.themes` is a mapping
and `themeName` is neither one of its keys nor the name of an inherited member,
`setTheme(themeName)` throws the "not found" error and changes nothing: the instance and
the browser are exactly as before the call. -/
theorem setTheme_rejects_unresolved (self : BrandingManager) (env : Browser)
    (themeName : String) (themes : List (String × JSValue))
    (hthemes : getProp self.config "themes" = .ok (.obj themes))
    (hnot : assoc themeName themes = none)
    (hname : themeName ∉ inheritedNames) :
    (setTheme self env themeName).result = .error (themeNotFound themeName)
      ∧ (setTheme self env themeName).self = self
      ∧ (setTheme self env themeName).env = env := by
  rw [setTheme_of_absent self env themeName themes hthemes hnot hname]
  simp

/-- C1, at the failing input: over `exampleConfig`, whose `themes` has the keys `light` and
`dark` only, on the fresh instance and a browser with nothing stored, `setTheme('constructor')`
does not throw. The read `config.themes['constructor']` finds the member every object
inherits, which is truthy; the name becomes the active theme name and is written to the
`data-theme` attribute and to the stored `theme` entry. -/
theorem setTheme_commits_inherited_name :
    getProp exampleConfig "themes" = .ok (.obj [("light", exampleTheme), ("dark", exampleTheme)])
      ∧ assoc "constructor" [("light", exampleTheme), ("dark", exampleTheme)] = none
      ∧ (setTheme (BrandingManager.new exampleConfig) emptyBrowser "constructor").result = .ok ()
      ∧ (setTheme (BrandingManager.new exampleConfig) emptyBrowser "constructor").self.currentTheme
          = "constructor"
      ∧ getEntry "data-theme"
          (setTheme (BrandingManager.new exampleConfig) emptyBrowser "constructor").env.attributes
          = some "constructor"
      ∧ getEntry "theme"
          (setTheme (BrandingManager.new exampleConfig) emptyBrowser "constructor").env.localStorage
          = some "constructor" :=
  ⟨rfl, rfl, rfl, rfl, rfl, rfl⟩

/-- C2: when `themeName` is a key of `config.themes` (bound to a theme object),
`setTheme(themeName)` returns normally; afterwards the active theme name is `themeName`,
`getTheme()` without argument returns `config.themes[themeName]`, the `data-theme`
attribute is `themeName`, `localStorage` holds `themeName` under `theme`, and the
configuration is the one from before. -/
theorem setTheme_known_commits (self : BrandingManager) (env : Browser) (themeName : String)
    (themes theme : List (String × JSValue))
    (hthemes : getProp self.config "themes" = .ok (.obj themes))
    (hkey : assoc themeName themes = some (.obj theme)) :
    (setTheme self env themeName).result = .ok ()
      ∧ (setTheme self env themeName).self.currentTheme = themeName
      ∧ getTheme (setTheme self env themeName).self none = .ok (.obj theme)
      ∧ getEntry "data-theme" (setTheme self env themeName).env.attributes = some themeName
      ∧ getEntry "theme" (setTheme self env themeName).env.localStorage = some themeName
      ∧ (setTheme self env themeName).self.config = self.config := by
  rw [setTheme_of_object self env themeName themes theme hthemes hkey]
  simp [bind, Except.bind, getProp_obj, hkey, getTheme, hthemes, getEntry_setEntry]

/-- Witness of C2: the fresh instance over `exampleConfig` switches to `dark`. -/
theorem setTheme_known_commits_witness :
    (setTheme (BrandingManager.new exampleConfig) emptyBrowser "dark").result = .ok ()
      ∧ (setTheme (BrandingManager.new exampleConfig) emptyBrowser "dark").self.currentTheme
        = "dark"
      ∧ getEntry "theme"
          (setTheme (BrandingManager.new exampleConfig) emptyBrowser "dark").env.localStorage
        = some "dark" :=
  have h := setTheme_known_commits (BrandingManager.new exampleConfig) emptyBrowser "dark"
    [("light", exampleTheme), ("dark", exampleTheme)] _ rfl rfl
  ⟨h.1, h.2.1, h.2.2.2.2.1⟩

/-- C3, as stated, fails: over `exampleConfig`, which declares `light`, with the stored
preference `neon`, `initializeTheme()` throws the "not found" error, both on the fresh
instance and on one whose active theme is `dark`; in the latter the active theme stays
`dark`, it does not resolve to `light`. With the stored preference `toString`, which is
no declared theme either, the call returns normally and the active theme name is
`toString`, not `light`. -/
theorem stale_preference_throws :
    assoc "neon" [("light", exampleTheme), ("dark", exampleTheme)] = none
      ∧ (initializeTheme (BrandingManager.new exampleConfig) neonBrowser).result
          = .error (themeNotFound "neon")
      ∧ (initializeTheme darkManager neonBrowser).result = .error (themeNotFound "neon")
      ∧ (initializeTheme darkManager neonBrowser).self.currentTheme = "dark"
      ∧ ¬ ((initializeTheme darkManager neonBrowser).result = .ok ()
            ∧ (initializeTheme darkManager neonBrowser).self.currentTheme = "light")
      ∧ assoc "toString" [("light", exampleTheme), ("dark", exampleTheme)] = none
      ∧ (initializeTheme darkManager toStringBrowser).result = .ok ()
      ∧ (initializeTheme darkManager toStringBrowser).self.currentTheme = "toString" := by
  refine ⟨rfl, rfl, rfl, rfl, ?_, rfl, rfl, rfl⟩
  rintro ⟨_, h⟩
  exact absurd h (by decide)

/-- C3, amended: when the stored preference is a non-empty name that is neither a key of
`config.themes` nor the name of a member every object inherits (`constructor`,
`toString`, ...), `initializeTheme()` throws the "not found" error of `setTheme` for that
name, and the instance and the browser are exactly as before the call. -/
theorem initializeTheme_unknown_preference (self : BrandingManager) (env : Browser)
    (saved : String) (themes : List (String × JSValue))
    (hthemes : getProp self.config "themes" = .ok (.obj themes))
    (hsaved : getEntry "theme" env.localStorage = some saved)
    (hne : saved ≠ "")
    (hnot : assoc saved themes = none)
    (hname : saved ∉ inheritedNames) :
    (initializeTheme self env).result = .error (themeNotFound saved)
      ∧ (initializeTheme self env).self = self
      ∧ (initializeTheme self env).env = env := by
  have hs : getSavedTheme env = saved := by simp [getSavedTheme, hsaved, hne]
  rw [initializeTheme, hs, setTheme_of_absent self env saved themes hthemes hnot hname]
  simp

/-- Witness of amended C3: the fresh instance over `exampleConfig`, stored preference `neon`. -/
theorem initializeTheme_unknown_preference_witness :
    (initializeTheme (BrandingManager.new exampleConfig) neonBrowser).result
        = .error (themeNotFound "neon")
      ∧ (initializeTheme (BrandingManager.new exampleConfig) neonBrowser).self.currentTheme
        = "light" :=
  have h := initializeTheme_unknown_preference (BrandingManager.new exampleConfig) neonBrowser
    "neon" [("light", exampleTheme), ("dark", exampleTheme)] rfl rfl (by decide) rfl
    (by decide)
  ⟨h.1, congrArg BrandingManager.currentTheme h.2.1⟩

/-- C4, as stated, fails: over `darkOnlyConfig`, which does not declare `light`, with
active theme `dark` and nothing stored, `initializeTheme()` throws the "not found" error
for `light` and the active theme stays `dark`. -/
theorem missing_light_throws :
    getEntry "theme" emptyBrowser.localStorage = none
      ∧ (initializeTheme darkOnlyManager emptyBrowser).result = .error (themeNotFound "light")
      ∧ (initializeTheme darkOnlyManager emptyBrowser).self.currentTheme = "dark"
      ∧ ¬ ((initializeTheme darkOnlyManager emptyBrowser).result = .ok ()
            ∧ (initializeTheme darkOnlyManager emptyBrowser).self.currentTheme = "light") := by
  refine ⟨rfl, rfl, rfl, ?_⟩
  rintro ⟨_, h⟩
  exact absurd h (by decide)

/-- C4, amended: when `config.themes` declares `light` (bound to a theme object) and
nothing is stored under `theme`, `initializeTheme()` returns normally from any current
state and the active theme name is `light` afterwards. -/
theorem initializeTheme_absent_preference (self : BrandingManager) (env : Browser)
    (themes light : List (String × JSValue))
    (hthemes : getProp self.config "themes" = .ok (.obj themes))
    (hlight : assoc "light" themes = some (.obj light))
    (habsent : getEntry "theme" env.localStorage = none) :
    (initializeTheme self env).result = .ok ()
      ∧ (initializeTheme self env).self.currentTheme = "light" := by
  have hs : getSavedTheme env = "light" := by simp [getSavedTheme, habsent]
  rw [initializeTheme, hs, setTheme_of_object self env "light" themes light hthemes hlight]
  simp

/-- Witness of amended C4: active theme `dark` over `exampleConfig`, nothing stored. -/
theorem initializeTheme_absent_preference_witness :
    (initializeTheme darkManager emptyBrowser).result = .ok ()
      ∧ (initializeTheme darkManager emptyBrowser).self.currentTheme = "light" :=
  initializeTheme_absent_preference darkManager emptyBrowser
    [("light", exampleTheme), ("dark", exampleTheme)] _ rfl rfl rfl

/-! ## Token resolver -/

/-- How `getTextColor` resolves over a `colors.text` mapping: the value read under the
requested type if it is truthy, otherwise the read of `primary`. -/
theorem getTextColor_of_text (self : BrandingManager) (theme colors : JSValue)
    (text : List (String × JSValue)) (type : Option String)
    (htheme : getTheme self none = .ok theme)
    (hcolors : getProp theme "colors" = .ok colors)
    (htext : getProp colors "text" = .ok (.obj text)) :
    getTextColor self type
      = if ((assoc (type.getD "primary") text).getD
            (inheritedMember (type.getD "primary"))).truthy
        then .ok ((assoc (type.getD "primary") text).getD
            (inheritedMember (type.getD "primary")))
        else .ok ((assoc "primary" text).getD (inheritedMember "primary")) := by
  simp only [getTextColor, htheme, hcolors, htext, bind, Except.bind, getProp_obj, pure,
    Except.pure]

/-- The fallback of `getTextColor` where it works: when the active theme's `colors.text`
is a mapping of colour values that has a `primary` key, `getTextColor(type)` returns
`colors.text[type]` if `type` is one of its keys, and `colors.text.primary` if it is neither
a key nor the name of an inherited member. An omitted argument reads `primary`. -/
theorem getTextColor_resolves (self : BrandingManager) (theme colors primary : JSValue)
    (text : List (String × JSValue)) (type : String)
    (htheme : getTheme self none = .ok theme)
    (hcolors : getProp theme "colors" = .ok colors)
    (htext : getProp colors "text" = .ok (.obj text))
    (hprimary : assoc "primary" text = some primary)
    (htokens : ∀ kv ∈ text, isToken kv.2 = true) :
    (∀ v, assoc type text = some v → getTextColor self (some type) = .ok v)
      ∧ (assoc type text = none → type ∉ inheritedNames
          → getTextColor self (some type) = .ok primary)
      ∧ (assoc type text = none → type ∈ inheritedNames
          → getTextColor self (some type) = .ok (.inherited type))
      ∧ getTextColor self none = .ok primary := by
  have hp : isToken primary = true := htokens _ (assoc_mem hprimary)
  refine ⟨?_, ?_, ?_, ?_⟩
  · intro v hv
    have hvt : v.truthy = true := truthy_of_isToken (htokens _ (assoc_mem hv))
    rw [getTextColor_of_text self theme colors text (some type) htheme hcolors htext]
    simp [hv, hvt]
  · intro hv hname
    rw [getTextColor_of_text self theme colors text (some type) htheme hcolors htext]
    simp [hv, hprimary, inheritedMember_of_not_mem hname, JSValue.truthy]
  · intro hv hname
    rw [getTextColor_of_text self theme colors text (some type) htheme hcolors htext]
    simp [hv, inheritedMember_of_mem hname, JSValue.truthy]
  · rw [getTextColor_of_text self theme colors text none htheme hcolors htext]
    simp [hprimary, truthy_of_isToken hp]

/-- C5, at the failing input: over `exampleConfig`, whose active theme has a `colors.text`
with the keys `primary` and `secondary`, `getTextColor('constructor')` does not return
`colors.text.primary`. The read `colors.text['constructor']` finds the member every object
inherits, which is truthy, and `||` returns it: the result is a function, not the colour
value `#222222`. -/
theorem getTextColor_returns_inherited_member :
    assoc "constructor" [("primary", JSValue.str "#222222"), ("secondary", .str "#333333")] = none
      ∧ getTextColor (BrandingManager.new exampleConfig) (some "constructor")
          = .ok (.inherited "constructor")
      ∧ getTextColor (BrandingManager.new exampleConfig) (some "constructor")
          ≠ .ok (.str "#222222") := by
  refine ⟨rfl, rfl, ?_⟩
  intro h
  have h2 := h.symm.trans (rfl : getTextColor (BrandingManager.new exampleConfig)
    (some "constructor") = .ok (.inherited "constructor"))
  cases Except.ok.inj h2

/-- How `getPaletteColor` resolves once palette and colour exist: the requested shade if
it is truthy, otherwise the read of shade `0`. -/
theorem getPaletteColor_of_shades (self : BrandingManager)
    (palettes palette : List (String × JSValue)) (shades : List JSValue)
    (paletteName colorName : String) (shade : Option Nat)
    (hpalettes : getProp self.config "colorPalettes" = .ok (.obj palettes))
    (hpalette : assoc paletteName palettes = some (.obj palette))
    (hcolor : assoc colorName palette = some (.arr shades)) :
    getPaletteColor self paletteName colorName shade
      = if (shades[shade.getD 2]?.getD .undefined).truthy
        then .ok (shades[shade.getD 2]?.getD .undefined)
        else .ok (shades[0]?.getD .undefined) := by
  simp only [getPaletteColor, hpalettes, bind, Except.bind, getProp_obj, hpalette, hcolor,
    Option.getD_some, JSValue.truthy, Bool.not_true, Bool.false_eq_true, if_false, getIndex_arr,
    pure, Except.pure]

/-- C6: when the palette and the colour exist in `colorPalettes` and the colour is a
sequence of shade values, `getPaletteColor(palette, color, shade)` returns the value at
index `shade` if that index is in the sequence, and the value at index `0` if it is not;
an index past the end (such as 99 on five shades) gives what shade `0` gives. -/
theorem getPaletteColor_shade_fallback (self : BrandingManager)
    (palettes palette : List (String × JSValue)) (shades : List JSValue)
    (paletteName colorName : String) (shade : Nat)
    (hpalettes : getProp self.config "colorPalettes" = .ok (.obj palettes))
    (hpalette : assoc paletteName palettes = some (.obj palette))
    (hcolor : assoc colorName palette = some (.arr shades))
    (htokens : ∀ v ∈ shades, isToken v = true) :
    (∀ v, shades[shade]? = some v
        → getPaletteColor self paletteName colorName (some shade) = .ok v)
      ∧ (shades[shade]? = none
        → getPaletteColor self paletteName colorName (some shade)
            = .ok (shades[0]?.getD .undefined))
      ∧ (shades[shade]? = none
        → getPaletteColor self paletteName colorName (some shade)
            = getPaletteColor self paletteName colorName (some 0)) := by
  have hzero : getPaletteColor self paletteName colorName (some 0)
      = .ok (shades[0]?.getD .undefined) := by
    rw [getPaletteColor_of_shades self palettes palette shades paletteName colorName (some 0)
      hpalettes hpalette hcolor]
    split <;> rfl
  have habsent : shades[shade]? = none
      → getPaletteColor self paletteName colorName (some shade)
          = .ok (shades[0]?.getD .undefined) := by
    intro h
    rw [getPaletteColor_of_shades self palettes palette shades paletteName colorName (some shade)
      hpalettes hpalette hcolor]
    simp [h, JSValue.truthy]
  refine ⟨?_, habsent, fun h => (habsent h).trans hzero.symm⟩
  intro v hv
  have hvt : v.truthy = true := truthy_of_isToken (htokens v (List.getElem?_mem hv))
  rw [getPaletteColor_of_shades self palettes palette shades paletteName colorName (some shade)
    hpalettes hpalette hcolor]
  simp [hv, hvt]

/-- Witness of C6: `brand.blue` of `exampleConfig` has three shades; shade 1 reads the
second one, shade 99 reads what shade 0 reads. -/
theorem getPaletteColor_shade_fallback_witness :
    getPaletteColor (BrandingManager.new exampleConfig) "brand" "blue" (some 1)
        = .ok (.str "#99c2ff")
      ∧ getPaletteColor (BrandingManager.new exampleConfig) "brand" "blue" (some 99)
        = getPaletteColor (BrandingManager.new exampleConfig) "brand" "blue" (some 0) :=
  ⟨(getPaletteColor_shade_fallback (BrandingManager.new exampleConfig) _
      [("blue", .arr [.str "#e6f0ff", .str "#99c2ff", .str "#0066ff"])]
      [.str "#e6f0ff", .str "#99c2ff", .str "#0066ff"] "brand" "blue" 1
      rfl rfl rfl (by decide)).1 _ rfl,
   (getPaletteColor_shade_fallback (BrandingManager.new exampleConfig) _
      [("blue", .arr [.str "#e6f0ff", .str "#99c2ff", .str "#0066ff"])]
      [.str "#e6f0ff", .str "#99c2ff", .str "#0066ff"] "brand" "blue" 99
      rfl rfl rfl (by decide)).2.2 rfl⟩

/-- The two early returns of `getPaletteColor`: a missing palette or a missing colour
gives `null`, when the names are not those of inherited members. -/
theorem getPaletteColor_of_missing (self : BrandingManager)
    (palettes : List (String × JSValue)) (paletteName colorName : String) (shade : Option Nat)
    (hpalettes : getProp self.config "colorPalettes" = .ok (.obj palettes))
    (hpaletteName : paletteName ∉ inheritedNames)
    (hcolorName : colorName ∉ inheritedNames)
    (hmissing : assoc paletteName palettes = none
      ∨ ∃ palette, assoc paletteName palettes = some (.obj palette)
          ∧ assoc colorName palette = none) :
    getPaletteColor self paletteName colorName shade = .ok .null := by
  rcases hmissing with h | ⟨palette, hp, hc⟩
  · simp [getPaletteColor, hpalettes, bind, Except.bind, getProp_obj, h, JSValue.truthy, pure,
      Except.pure, inheritedMember_of_not_mem hpaletteName]
  · simp [getPaletteColor, hpalettes, bind, Except.bind, getProp_obj, hp, hc, JSValue.truthy,
      pure, Except.pure, inheritedMember_of_not_mem hcolorName]

/-- The `null` of `getPaletteColor` where it works: over a `colorPalettes` section that maps
palette names to palettes of shade sequences, and for a palette name and a colour name
that are not names of inherited members, `getPaletteColor` never throws, whatever the
shade; it returns `null` exactly when the palette name is not in `colorPalettes` or the
colour name is not in that palette; and when both exist and the colour has a shade at
index `0`, the result is a colour value, not `null`. -/
theorem getPaletteColor_null_cases (self : BrandingManager)
    (palettes : List (String × JSValue)) (paletteName colorName : String) (shade : Option Nat)
    (hpalettes : getProp self.config "colorPalettes" = .ok (.obj palettes))
    (hwf : wfPalettes palettes = true)
    (hpaletteName : paletteName ∉ inheritedNames)
    (hcolorName : colorName ∉ inheritedNames) :
    (∃ v, getPaletteColor self paletteName colorName shade = .ok v)
      ∧ (getPaletteColor self paletteName colorName shade = .ok .null
          ↔ (assoc paletteName palettes = none
              ∨ ∃ palette, assoc paletteName palettes = some (.obj palette)
                  ∧ assoc colorName palette = none))
      ∧ (∀ palette shades first, assoc paletteName palettes = some (.obj palette)
          → assoc colorName palette = some (.arr shades) → shades[0]? = some first
          → ∃ v, getPaletteColor self paletteName colorName shade = .ok v
              ∧ isToken v = true ∧ v ≠ .null) := by
  have hfound : ∀ palette shades, assoc paletteName palettes = some (.obj palette)
      → assoc colorName palette = some (.arr shades)
      → ∃ v, getPaletteColor self paletteName colorName shade = .ok v ∧ v ≠ .null
          ∧ (∀ first, shades[0]? = some first → isToken v = true) := by
    intro palette shades hp hc
    have hshades : isShadeList (.arr shades) = true :=
      isShadeList_of_isPalette (isPalette_of_wfPalettes hwf hp) hc
    have htokens : ∀ v ∈ shades, isToken v = true := by
      simpa [isShadeList] using hshades
    rw [getPaletteColor_of_shades self palettes palette shades paletteName colorName shade
      hpalettes hp hc]
    cases hi : shades[shade.getD 2]? with
    | some v =>
      have hv := htokens v (List.getElem?_mem hi)
      exact ⟨v, by simp [truthy_of_isToken hv], ne_null_of_isToken hv, fun _ _ => hv⟩
    | none =>
      cases h0 : shades[0]? with
      | some w =>
        have hw := htokens w (List.getElem?_mem h0)
        exact ⟨w, by simp [JSValue.truthy], ne_null_of_isToken hw, fun _ _ => hw⟩
      | none =>
        exact ⟨.undefined, by simp [JSValue.truthy], by simp, by simp⟩
  have hcases : (assoc paletteName palettes = none
        ∨ ∃ palette, assoc paletteName palettes = some (.obj palette)
            ∧ assoc colorName palette = none)
      ∨ ∃ palette shades, assoc paletteName palettes = some (.obj palette)
            ∧ assoc colorName palette = some (.arr shades) := by
    cases hp : assoc paletteName palettes with
    | none => exact Or.inl (Or.inl rfl)
    | some pal =>
      have hpal := isPalette_of_wfPalettes hwf hp
      cases pal with
      | obj palette =>
        cases hc : assoc colorName palette with
        | none => exact Or.inl (Or.inr ⟨palette, rfl, hc⟩)
        | some col =>
          have hcol := isShadeList_of_isPalette hpal hc
          cases col with
          | arr shades => exact Or.inr ⟨palette, shades, rfl, hc⟩
          | _ => simp [isShadeList] at hcol
      | _ => simp [isPalette] at hpal
  refine ⟨?_, ?_, ?_⟩
  · rcases hcases with hm | ⟨palette, shades, hp, hc⟩
    · exact ⟨.null, getPaletteColor_of_missing self palettes paletteName colorName shade
        hpalettes hpaletteName hcolorName hm⟩
    · obtain ⟨v, hv, _⟩ := hfound palette shades hp hc
      exact ⟨v, hv⟩
  · constructor
    · intro hnull
      rcases hcases with hm | ⟨palette, shades, hp, hc⟩
      · exact hm
      · obtain ⟨v, hv, hne, _⟩ := hfound palette shades hp hc
        rw [hv] at hnull
        exact absurd (Except.ok.inj hnull) hne
    · exact getPaletteColor_of_missing self palettes paletteName colorName shade hpalettes
        hpaletteName hcolorName
  · intro palette shades first hp hc h0
    obtain ⟨v, hv, hne, htok⟩ := hfound palette shades hp hc
    exact ⟨v, hv, htok first h0, hne⟩

/-- C7, at the failing input: over `exampleConfig`, whose palette `brand` has the colour
`blue` only, `getPaletteColor('brand', 'toString')` does not return `null`, with the
default shade or with shade 0. The read `palette['toString']` finds the member every
object inherits, which is truthy, so the guard passes; the member has no shade, and the
result is `undefined`. -/
theorem getPaletteColor_inherited_colour :
    assoc "toString" [("blue", JSValue.arr [.str "#e6f0ff", .str "#99c2ff", .str "#0066ff"])]
        = none
      ∧ getPaletteColor (BrandingManager.new exampleConfig) "brand" "toString" none
          = .ok .undefined
      ∧ getPaletteColor (BrandingManager.new exampleConfig) "brand" "toString" (some 0)
          = .ok .undefined
      ∧ getPaletteColor (BrandingManager.new exampleConfig) "brand" "toString" none
          ≠ .ok .null := by
  refine ⟨rfl, rfl, rfl, ?_⟩
  intro h
  have h2 := h.symm.trans (rfl : getPaletteColor (BrandingManager.new exampleConfig) "brand"
    "toString" none = .ok .undefined)
  cases Except.ok.inj h2

/-- How `getSpacing` resolves over a `spacing.scale` mapping: the value read under the
requested key if it is truthy, otherwise the read of `'0'`. -/
theorem getSpacing_of_scale (self : BrandingManager) (spacing : JSValue)
    (table : List (String × JSValue)) (scale : String)
    (hspacing : getProp self.config "spacing" = .ok spacing)
    (htable : getProp spacing "scale" = .ok (.obj table)) :
    getSpacing self scale
      = if ((assoc scale table).getD (inheritedMember scale)).truthy
        then .ok ((assoc scale table).getD (inheritedMember scale))
        else .ok ((assoc "0" table).getD (inheritedMember "0")) := by
  simp only [getSpacing, hspacing, htable, bind, Except.bind, getProp_obj, pure, Except.pure]

/-- The fallback of `getSpacing` where it works: when `spacing.scale` is a mapping of
dimension strings, `getSpacing(scale)` returns `spacing.scale[scale]` if `scale` is one of
its keys, and `spacing.scale['0']` if it is neither a key nor the name of an inherited
member. -/
theorem getSpacing_resolves (self : BrandingManager) (spacing : JSValue)
    (table : List (String × JSValue)) (scale : String)
    (hspacing : getProp self.config "spacing" = .ok spacing)
    (htable : getProp spacing "scale" = .ok (.obj table))
    (htokens : ∀ kv ∈ table, isToken kv.2 = true) :
    (∀ v, assoc scale table = some v → getSpacing self scale = .ok v)
      ∧ (assoc scale table = none → scale ∉ inheritedNames
          → getSpacing self scale = .ok ((assoc "0" table).getD .undefined))
      ∧ (assoc scale table = none → scale ∈ inheritedNames
          → getSpacing self scale = .ok (.inherited scale)) := by
  rw [getSpacing_of_scale self spacing table scale hspacing htable]
  have hzero : inheritedMember "0" = .undefined := rfl
  refine ⟨?_, ?_, ?_⟩
  · intro v hv
    have hvt : v.truthy = true := truthy_of_isToken (htokens _ (assoc_mem hv))
    simp [hv, hvt]
  · intro hv hname
    simp [hv, hzero, inheritedMember_of_not_mem hname, JSValue.truthy]
  · intro hv hname
    simp [hv, inheritedMember_of_mem hname, JSValue.truthy]

/-- C8, at the failing input: over `exampleConfig`, whose spacing scale has the keys `0`
and `4`, `getSpacing('toString')` does not return `spacing.scale['0']`. The read
`scale['toString']` finds the member every object inherits, which is truthy, and `||`
returns it: the result is a function, not the dimension `0rem`. -/
theorem getSpacing_returns_inherited_member :
    assoc "toString" [("0", JSValue.str "0rem"), ("4", .str "1rem")] = none
      ∧ getSpacing (BrandingManager.new exampleConfig) "toString" = .ok (.inherited "toString")
      ∧ getSpacing (BrandingManager.new exampleConfig) "toString" ≠ .ok (.str "0rem") := by
  refine ⟨rfl, rfl, ?_⟩
  intro h
  have h2 := h.symm.trans (rfl : getSpacing (BrandingManager.new exampleConfig) "toString"
    = .ok (.inherited "toString"))
  cases Except.ok.inj h2

/-- C9, as stated, fails: over `exampleConfig`, `getTypography('header')` does not return
the whole `typography` object. The element starts with `h`, so the code reads
`typography.headings['header']`, which is `undefined`. -/
theorem header_reads_headings :
    getTypography (BrandingManager.new exampleConfig) "header" = .ok .undefined
      ∧ getTypography (BrandingManager.new exampleConfig) "header"
          ≠ getProp exampleConfig "typography" := by
  refine ⟨rfl, ?_⟩
  intro h
  have h2 := h.symm.trans (rfl : getTypography (BrandingManager.new exampleConfig) "header"
    = .ok .undefined)
  cases Except.ok.inj h2

/-- C9, amended: `getTypography(element)` returns `typography.headings[element]` for every
element that starts with the letter `h`, whatever follows it, and the whole `typography`
object for every element that does not start with `h`. -/
theorem getTypography_headings_branch (self : BrandingManager) (element : String)
    (typography headings : JSValue)
    (htypography : getProp self.config "typography" = .ok typography)
    (hheadings : getProp typography "headings" = .ok headings) :
    ((∃ rest : String, element = "h" ++ rest)
        → getTypography self element = getProp headings element)
      ∧ ((¬ ∃ rest : String, element = "h" ++ rest)
        → getTypography self element = .ok typography) := by
  constructor
  · intro h
    have hs := (startsWithH_iff element).mpr h
    simp [getTypography, hs, htypography, hheadings, bind, Except.bind]
  · intro h
    have hs : startsWithH element = false := by
      cases hb : startsWithH element with
      | false => rfl
      | true => exact absurd ((startsWithH_iff element).mp hb) h
    simp [getTypography, hs, htypography]

/-- Witness of amended C9: over `exampleConfig`, `h1` reads its heading entry, `hero` reads
`typography.headings['hero']`, which is `undefined`, and `body` reads the whole
`typography` object. -/
theorem getTypography_headings_branch_witness :
    getTypography (BrandingManager.new exampleConfig) "h1"
        = .ok (.obj [("fontSize", .str "2rem")])
      ∧ getTypography (BrandingManager.new exampleConfig) "hero" = .ok .undefined
      ∧ getTypography (BrandingManager.new exampleConfig) "body"
        = getProp exampleConfig "typography" :=
  ⟨((getTypography_headings_branch (BrandingManager.new exampleConfig) "h1" _ _ rfl rfl).1
      ⟨"1", rfl⟩).trans rfl,
   ((getTypography_headings_branch (BrandingManager.new exampleConfig) "hero" _ _ rfl rfl).1
      ⟨"ero", rfl⟩).trans rfl,
   (getTypography_headings_branch (BrandingManager.new exampleConfig) "body" _ _ rfl rfl).2
      (fun h => absurd ((startsWithH_iff "body").mpr h) (by decide))⟩

/-! ## Style materialiser -/

theorem concat_append (xs ys : List String) :
    Spec.concat (xs ++ ys) = Spec.concat xs ++ Spec.concat ys := by
  induction xs with
  | nil => simp [Spec.concat]
  | cons x rest ih => simp [Spec.concat, ih, String.append_assoc]

theorem dashes_color (rest : String) : "  --" ++ ("color-" ++ rest) = "  --color-" ++ rest := by
  rw [← String.append_assoc]
  rfl

theorem dashes_spacing (rest : String) :
    "  --" ++ ("spacing-" ++ rest) = "  --spacing-" ++ rest := by
  rw [← String.append_assoc]
  rfl

theorem foldl_appendNestedColor (key : String) (nested : List (String × String)) (css : String) :
    (nested.map fun kv => ((kv.1, JSValue.str kv.2) : String × JSValue)).foldl
        (appendNestedColor key) css
      = css ++ Spec.concat (nested.map fun sub =>
          Spec.line ("color-" ++ key ++ "-" ++ sub.1) sub.2) := by
  induction nested generalizing css with
  | nil => simp [Spec.concat]
  | cons sub rest ih =>
    simp only [List.map_cons, List.foldl_cons, ih, Spec.concat]
    simp [appendNestedColor, Spec.line, toStr, String.append_assoc, dashes_color]

theorem appendColor_colorProp (css : String) (kv : String × Spec.ColorEntry) :
    appendColor css (Spec.colorProp kv) = .ok (css ++ Spec.concat (Spec.colorLines kv)) := by
  obtain ⟨key, entry⟩ := kv
  cases entry with
  | plain value =>
    simp [appendColor, Spec.colorProp, Spec.ColorEntry.toJS, JSValue.typeofObject,
      Spec.colorLines, Spec.concat, Spec.line, toStr, String.append_assoc, pure, Except.pure,
      dashes_color]
  | group nested =>
    simp [appendColor, Spec.colorProp, Spec.ColorEntry.toJS, JSValue.typeofObject,
      Spec.colorLines, entries, bind, Except.bind, pure, Except.pure,
      foldl_appendNestedColor]

theorem foldlM_appendColor (colors : List (String × Spec.ColorEntry)) (css : String) :
    (colors.map Spec.colorProp).foldlM appendColor css
      = .ok (css ++ Spec.concat (colors.map fun kv => Spec.concat (Spec.colorLines kv))) := by
  induction colors generalizing css with
  | nil => simp [Spec.concat, pure, Except.pure]
  | cons kv rest ih =>
    simp only [List.map_cons, List.foldlM_cons, appendColor_colorProp, bind, Except.bind, ih,
      Spec.concat, String.append_assoc]

theorem foldl_appendSpacing (scale : List (String × JSValue)) (css : String) :
    scale.foldl appendSpacing css = css ++ Spec.concat (scale.map Spec.spacingLine) := by
  induction scale generalizing css with
  | nil => simp [Spec.concat]
  | cons kv rest ih =>
    simp only [List.map_cons, List.foldl_cons, ih, Spec.concat]
    simp [appendSpacing, Spec.spacingLine, Spec.line, String.append_assoc, dashes_spacing]

/-- C10: when the colours of the active theme are plain strings or one-level mappings of
strings, `generateCSS()` returns exactly the text the specification words: the line
`:root {`, then per top-level colour key, in traversal order, one
`  --color-<key>: <value>;` line or one `  --color-<key>-<subKey>: <subValue>;` line per
nested key, then one `  --spacing-<key>: <value>;` line per key of the spacing scale, then
`}`, each line ended by a newline. The text depends on the colours and the scale only: any
other instance with the same two returns the same text. -/
theorem generateCSS_serialize (self : BrandingManager) (theme spacing : JSValue)
    (colors : List (String × Spec.ColorEntry)) (scale : List (String × JSValue))
    (htheme : getTheme self none = .ok theme)
    (hcolors : getProp theme "colors" = .ok (.obj (colors.map Spec.colorProp)))
    (hspacing : getProp self.config "spacing" = .ok spacing)
    (hscale : getProp spacing "scale" = .ok (.obj scale)) :
    generateCSS self = .ok (Spec.serialize colors scale)
      ∧ ∀ (other : BrandingManager) (theme2 spacing2 : JSValue),
          getTheme other none = .ok theme2
          → getProp theme2 "colors" = .ok (.obj (colors.map Spec.colorProp))
          → getProp other.config "spacing" = .ok spacing2
          → getProp spacing2 "scale" = .ok (.obj scale)
          → generateCSS other = generateCSS self := by
  have key : ∀ (m : BrandingManager) (t sp : JSValue), getTheme m none = .ok t
      → getProp t "colors" = .ok (.obj (colors.map Spec.colorProp))
      → getProp m.config "spacing" = .ok sp
      → getProp sp "scale" = .ok (.obj scale)
      → generateCSS m = .ok (Spec.serialize colors scale) := by
    intro m t sp h1 h2 h3 h4
    simp only [generateCSS, h1, h2, h3, h4, bind, Except.bind, entries, foldlM_appendColor,
      foldl_appendSpacing, pure, Except.pure, Spec.serialize, String.append_assoc]
  refine ⟨key self theme spacing htheme hcolors hspacing hscale, ?_⟩
  intro other theme2 spacing2 h1 h2 h3 h4
  rw [key other theme2 spacing2 h1 h2 h3 h4, key self theme spacing htheme hcolors hspacing hscale]

/-- Witness of C10: the colour tree and spacing scale of the specification's example give
its five lines between `:root {` and `}`. -/
theorem generateCSS_serialize_witness :
    generateCSS (BrandingManager.new exampleConfig)
      = .ok (":root \x7b\n  --color-primary: #111111;\n  --color-text-primary: #222222;\n"
          ++ "  --color-text-secondary: #333333;\n  --spacing-0: 0rem;\n  --spacing-4: 1rem;\n"
          ++ "\x7d\n") :=
  (generateCSS_serialize (BrandingManager.new exampleConfig) exampleTheme _
    [("primary", .plain "#111111"),
     ("text", .group [("primary", "#222222"), ("secondary", "#333333")])]
    [("0", .str "0rem"), ("4", .str "1rem")] rfl rfl rfl rfl).1.trans rfl

/-! ## Live application against serialisation -/

theorem spaces_color (rest : String) : "  " ++ ("--color-" ++ rest) = "  --color-" ++ rest := by
  rw [← String.append_assoc]
  rfl

theorem foldl_writeNestedColor (key : String) (subs : List (String × JSValue)) (env : Browser) :
    subs.foldl (writeNestedColor key) env
      = { env with styleCalls := env.styleCalls
            ++ subs.map fun sub => ("--color-" ++ key ++ "-" ++ sub.1, sub.2) } := by
  induction subs generalizing env with
  | nil => simp
  | cons sub rest ih =>
    simp [List.foldl_cons, ih, writeNestedColor, setProperty, List.append_assoc]

theorem foldl_appendNestedColor_writes (key : String) (subs : List (String × JSValue))
    (css : String) :
    subs.foldl (appendNestedColor key) css
      = css ++ Spec.concat ((subs.map fun sub => ("--color-" ++ key ++ "-" ++ sub.1, sub.2)).map
          Spec.lineOfWrite) := by
  induction subs generalizing css with
  | nil => simp [Spec.concat]
  | cons sub rest ih =>
    simp only [List.map_cons, List.foldl_cons, ih, Spec.concat]
    simp [appendNestedColor, Spec.lineOfWrite, String.append_assoc, spaces_color]

/-- One colour entry: the write callback and the text callback end the same way, and the
text callback appends one line per write. -/
theorem writeColor_appendColor (env : Browser) (kv : String × JSValue) (css : String) :
    (∀ e, (writeColor env kv).1 = .error e → appendColor css kv = .error e)
      ∧ (∀ u, (writeColor env kv).1 = .ok u →
          ∃ writes, (writeColor env kv).2.styleCalls = env.styleCalls ++ writes
            ∧ appendColor css kv = .ok (css ++ Spec.concat (writes.map Spec.lineOfWrite))
            ∧ ∀ w ∈ writes, ∃ rest : String, w.1 = "--color-" ++ rest) := by
  obtain ⟨key, value⟩ := kv
  by_cases hobj : value.typeofObject = true
  · cases hent : entries value with
    | error e0 =>
      simp [writeColor, appendColor, hobj, hent, bind, Except.bind]
    | ok subs =>
      refine ⟨by simp [writeColor, hobj, hent], fun u _ => ?_⟩
      refine ⟨subs.map fun sub => ("--color-" ++ key ++ "-" ++ sub.1, sub.2), ?_, ?_, ?_⟩
      · simp [writeColor, hobj, hent, foldl_writeNestedColor]
      · simp [appendColor, hobj, hent, bind, Except.bind, pure, Except.pure,
          foldl_appendNestedColor_writes]
      · intro w hw
        obtain ⟨sub, _, rfl⟩ := List.mem_map.mp hw
        exact ⟨key ++ "-" ++ sub.1, by simp [String.append_assoc]⟩
  · refine ⟨by simp [writeColor, hobj], fun u _ => ?_⟩
    refine ⟨[("--color-" ++ key, value)], ?_, ?_, ?_⟩
    · simp [writeColor, hobj, setProperty]
    · simp [appendColor, hobj, pure, Except.pure, Spec.concat, Spec.lineOfWrite,
        String.append_assoc, spaces_color]
    · intro w hw
      rw [List.mem_singleton] at hw
      exact ⟨key, by rw [hw]⟩

/-- The whole colour traversal: same outcome, one line per write, in order. -/
theorem writeColors_foldlM (colorEntries : List (String × JSValue)) (env : Browser)
    (css : String) :
    (∀ e, (writeColors colorEntries env).1 = .error e
        → colorEntries.foldlM appendColor css = .error e)
      ∧ (∀ u, (writeColors colorEntries env).1 = .ok u →
          ∃ writes, (writeColors colorEntries env).2.styleCalls = env.styleCalls ++ writes
            ∧ colorEntries.foldlM appendColor css
                = .ok (css ++ Spec.concat (writes.map Spec.lineOfWrite))
            ∧ ∀ w ∈ writes, ∃ rest : String, w.1 = "--color-" ++ rest) := by
  induction colorEntries generalizing env css with
  | nil =>
    refine ⟨by simp [writeColors], fun u _ => ⟨[], ?_, ?_, ?_⟩⟩
    · simp [writeColors]
    · simp [Spec.concat, pure, Except.pure]
    · simp
  | cons kv rest ih =>
    obtain ⟨herr, hok⟩ := writeColor_appendColor env kv css
    cases hw : writeColor env kv with
    | mk r env1 =>
      cases r with
      | error e0 =>
        have h0 := herr e0 (by rw [hw])
        constructor
        · intro e he
          simp [writeColors, hw] at he
          simp [List.foldlM_cons, h0, bind, Except.bind, he]
        · intro u hu
          simp [writeColors, hw] at hu
      | ok u0 =>
        obtain ⟨writes0, hcalls0, happ0, hnames0⟩ := hok u0 (by rw [hw])
        rw [hw] at hcalls0
        simp only at hcalls0
        obtain ⟨ihe, iho⟩ := ih env1 (css ++ Spec.concat (writes0.map Spec.lineOfWrite))
        constructor
        · intro e he
          simp only [writeColors, hw] at he
          simp [List.foldlM_cons, happ0, bind, Except.bind, ihe e he]
        · intro u hu
          simp only [writeColors, hw] at hu
          obtain ⟨writes1, hcalls1, happ1, hnames1⟩ := iho u hu
          refine ⟨writes0 ++ writes1, ?_, ?_, ?_⟩
          · simp only [writeColors, hw]
            rw [hcalls1, hcalls0, List.append_assoc]
          · simp only [List.foldlM_cons, happ0, bind, Except.bind, happ1]
            congr 1
            rw [String.append_assoc, List.map_append, concat_append]
          · intro w hw2
            rcases List.mem_append.mp hw2 with h | h
            · exact hnames0 w h
            · exact hnames1 w h

/-- C11: whenever `applyTheme()` returns normally, the writes it issued to the style target
(the calls it appended to the log) are, in order, exactly the colour entries of the text
`generateCSS()` returns for the same instance: the text is `:root {`, then one line
`  <name>: <value>;` per write, with the write's name (`--color-...`) and its value as
text, then the spacing lines, then `}`. When `applyTheme()` throws, `generateCSS()` throws
the same error. -/
theorem applyTheme_writes_are_color_entries (self : BrandingManager) (env : Browser) :
    (∀ e, (applyTheme self env).result = .error e → generateCSS self = .error e)
      ∧ (∀ u, (applyTheme self env).result = .ok u →
          ∃ writes, (applyTheme self env).env.styleCalls = env.styleCalls ++ writes
            ∧ (∀ w ∈ writes, ∃ rest : String, w.1 = "--color-" ++ rest)
            ∧ ∀ spacing scale scaleEntries, getProp self.config "spacing" = .ok spacing
                → getProp spacing "scale" = .ok scale → entries scale = .ok scaleEntries
                → generateCSS self
                    = .ok (":root \x7b\n" ++ Spec.concat (writes.map Spec.lineOfWrite)
                        ++ Spec.concat (scaleEntries.map Spec.spacingLine) ++ "\x7d\n")) := by
  cases htheme : getTheme self none with
  | error e0 => simp [applyTheme, generateCSS, htheme, bind, Except.bind]
  | ok theme =>
    cases hcolors : getProp theme "colors" with
    | error e0 => simp [applyTheme, generateCSS, htheme, hcolors, bind, Except.bind]
    | ok colors =>
      cases hentries : entries colors with
      | error e0 =>
        simp [applyTheme, generateCSS, htheme, hcolors, hentries, bind, Except.bind]
      | ok colorEntries =>
        obtain ⟨herr, hok⟩ := writeColors_foldlM colorEntries env ":root \x7b\n"
        have hres : (applyTheme self env).result = (writeColors colorEntries env).1 := by
          simp [applyTheme, htheme, hcolors, hentries, bind, Except.bind]
        have henv : (applyTheme self env).env = (writeColors colorEntries env).2 := by
          simp [applyTheme, htheme, hcolors, hentries, bind, Except.bind]
        constructor
        · intro e he
          rw [hres] at he
          simp [generateCSS, htheme, hcolors, hentries, bind, Except.bind, herr e he]
        · intro u hu
          rw [hres] at hu
          obtain ⟨writes, hcalls, happ, hnames⟩ := hok u hu
          refine ⟨writes, by rw [henv, hcalls], hnames, ?_⟩
          intro spacing scale scaleEntries hspacing hscale hse
          simp [generateCSS, htheme, hcolors, hentries, bind, Except.bind, happ, hspacing,
            hscale, hse, foldl_appendSpacing, pure, Except.pure, String.append_assoc]

/-- Witness of C11: over `exampleConfig`, `applyTheme()` issues the three colour writes of
the example and `generateCSS()` returns their three lines followed by the spacing lines. -/
theorem applyTheme_writes_are_color_entries_witness :
    (applyTheme (BrandingManager.new exampleConfig) emptyBrowser).env.styleCalls
        = [("--color-primary", .str "#111111"), ("--color-text-primary", .str "#222222"),
           ("--color-text-secondary", .str "#333333")]
      ∧ ∃ writes, (applyTheme (BrandingManager.new exampleConfig) emptyBrowser).env.styleCalls
            = emptyBrowser.styleCalls ++ writes
          ∧ generateCSS (BrandingManager.new exampleConfig)
            = .ok (":root \x7b\n" ++ Spec.concat (writes.map Spec.lineOfWrite)
                ++ Spec.concat ([("0", JSValue.str "0rem"), ("4", JSValue.str "1rem")].map
                    Spec.spacingLine) ++ "\x7d\n") :=
  ⟨rfl,
   match (applyTheme_writes_are_color_entries (BrandingManager.new exampleConfig)
      emptyBrowser).2 () rfl with
   | ⟨writes, hcalls, _, hcss⟩ => ⟨writes, hcalls, hcss _ _ _ rfl rfl rfl⟩⟩

/-! ## Colour parsing -/

theorem hexDigit_isSome (c : Char) : (hexDigit c).isSome = Spec.isHexDigit c := by
  unfold hexDigit Spec.isHexDigit Char.isDigit
  by_cases h1 : '0' ≤ c ∧ c ≤ '9'
  · have h1a : c.val ≥ 48 := h1.1
    have h1b : c.val ≤ 57 := h1.2
    simp [h1, h1a, h1b]
  · by_cases h2 : 'a' ≤ c ∧ c ≤ 'f'
    · simp [h1, h2]
    · by_cases h3 : 'A' ≤ c ∧ c ≤ 'F'
      · simp [h1, h2, h3]
      · have h1c : ¬ (c.val ≥ 48 ∧ c.val ≤ 57) := h1
        have h2c : ('a' ≤ c) → ¬ (c ≤ 'f') := fun a b => h2 ⟨a, b⟩
        have h3c : ('A' ≤ c) → ¬ (c ≤ 'F') := fun a b => h3 ⟨a, b⟩
        simp only [h1, h2, h3, if_false, Option.isSome_none]
        symm
        simp only [Bool.or_eq_false_iff, Bool.and_eq_false_iff, decide_eq_false_iff_not]
        refine ⟨⟨?_, ?_⟩, ?_⟩
        · by_cases ha : c.val ≥ 48
          · exact Or.inr (by simpa using fun hb => h1c ⟨ha, hb⟩)
          · exact Or.inl (by simpa using ha)
        · by_cases ha : 'a' ≤ c
          · exact Or.inr (h2c ha)
          · exact Or.inl ha
        · by_cases ha : 'A' ≤ c
          · exact Or.inr (h3c ha)
          · exact Or.inl ha

theorem matchHexGroups_isSome (cs : List Char) :
    (matchHexGroups cs).isSome = Spec.sixHexDigits cs := by
  rcases cs with _ | ⟨c1, _ | ⟨c2, _ | ⟨c3, _ | ⟨c4, _ | ⟨c5, _ | ⟨c6, _ | ⟨c7, rest⟩⟩⟩⟩⟩⟩⟩
  case cons.cons.cons.cons.cons.cons.nil =>
    simp only [matchHexGroups, Spec.sixHexDigits, List.length_cons, List.length_nil,
      List.all_cons, List.all_nil, ← hexDigit_isSome]
    cases hexDigit c1 <;> cases hexDigit c2 <;> cases hexDigit c3 <;> cases hexDigit c4 <;>
      cases hexDigit c5 <;> cases hexDigit c6 <;> rfl
  all_goals simp [matchHexGroups, Spec.sixHexDigits]

theorem hexToRgb_isSome (hex : String) : (hexToRgb hex).isSome = Spec.isHexColor hex := by
  unfold hexToRgb Spec.isHexColor
  split
  · rename_i rest h
    rw [h, matchHexGroups_isSome]
    have hfirst : Spec.sixHexDigits ('#' :: rest) = false := by
      have : Spec.isHexDigit '#' = false := by decide
      simp [Spec.sixHexDigits, this]
    simp [hfirst]
  · rename_i hno
    rw [matchHexGroups_isSome]
    have : (match hex.data with
        | '#' :: rest => Spec.sixHexDigits rest
        | _ => false) = false := by
      split
      · rename_i rest h
        exact absurd h (hno rest)
      · rfl
    simp [this]

theorem hexToRgb_eq_none_iff (hex : String) :
    hexToRgb hex = none ↔ Spec.isHexColor hex = false := by
  rw [← hexToRgb_isSome]
  cases hexToRgb hex <;> simp

/-- C12: `checkColorContrast` returns the `Invalid color format` error exactly when at least
one of its two inputs is not six hexadecimal digits (either case) after an optional single
leading `#`; with two well-formed inputs it returns the ratio report. The inputs `red`,
`#fff`, `#12345` and `1234567` are rejected, on either side and whatever the other input
is. -/
theorem checkColorContrast_invalid_iff (pow : ℚ → ℚ → ℚ) (foreground background : String) :
    (checkColorContrast pow foreground background = .error "Invalid color format"
        ↔ (Spec.isHexColor foreground = false ∨ Spec.isHexColor background = false))
      ∧ (Spec.isHexColor foreground = true ∧ Spec.isHexColor background = true
        → ∃ fg bg, hexToRgb foreground = some fg ∧ hexToRgb background = some bg
            ∧ checkColorContrast pow foreground background
                = classifyContrast (contrastRatio pow fg bg))
      ∧ (∀ bad ∈ ["red", "#fff", "#12345", "1234567"],
          checkColorContrast pow bad background = .error "Invalid color format"
            ∧ checkColorContrast pow foreground bad = .error "Invalid color format") := by
  have hiff : checkColorContrast pow foreground background = .error "Invalid color format"
      ↔ (Spec.isHexColor foreground = false ∨ Spec.isHexColor background = false) := by
    rw [← hexToRgb_eq_none_iff, ← hexToRgb_eq_none_iff]
    unfold checkColorContrast
    cases hexToRgb foreground <;> cases hexToRgb background <;> simp [classifyContrast]
  refine ⟨hiff, ?_, ?_⟩
  · rintro ⟨hf, hb⟩
    rw [← hexToRgb_isSome] at hf hb
    obtain ⟨fg, hfg⟩ := Option.isSome_iff_exists.mp hf
    obtain ⟨bg, hbg⟩ := Option.isSome_iff_exists.mp hb
    exact ⟨fg, bg, hfg, hbg, by simp [checkColorContrast, hfg, hbg]⟩
  · intro bad hbad
    have hnone : hexToRgb bad = none := by
      simp only [List.mem_cons, List.mem_singleton, List.not_mem_nil, or_false] at hbad
      rcases hbad with h | h | h | h <;> subst h <;> rfl
    constructor
    · simp [checkColorContrast, hnone]
    · unfold checkColorContrast
      cases hexToRgb foreground <;> simp [hnone]

/-- Witness of C12: black against `red` is rejected, black against white is not. -/
theorem checkColorContrast_invalid_iff_witness :
    checkColorContrast (fun x _ => x) "#000000" "red" = .error "Invalid color format"
      ∧ ∃ fg bg, hexToRgb "#000000" = some fg ∧ hexToRgb "#FFFFFF" = some bg
          ∧ checkColorContrast (fun x _ => x) "#000000" "#FFFFFF"
              = classifyContrast (contrastRatio (fun x _ => x) fg bg) :=
  ⟨(checkColorContrast_invalid_iff (fun x _ => x) "#000000" "red").1.mpr (Or.inr (by decide)),
   (checkColorContrast_invalid_iff (fun x _ => x) "#000000" "#FFFFFF").2.1
      ⟨by decide, by decide⟩⟩

/-! ## Rounding -/

theorem floor_le_roundHalfEven (x : ℚ) : ⌊x⌋ ≤ Double.roundHalfEven x := by
  unfold Double.roundHalfEven
  split_ifs <;> omega

theorem roundHalfEven_le_floor_succ (x : ℚ) : Double.roundHalfEven x ≤ ⌊x⌋ + 1 := by
  unfold Double.roundHalfEven
  split_ifs <;> omega

theorem int_le_roundHalfEven {x : ℚ} {n : ℤ} (h : (n : ℚ) ≤ x) : n ≤ Double.roundHalfEven x :=
  le_trans (Int.le_floor.mpr h) (floor_le_roundHalfEven x)

theorem roundHalfEven_le_int {x : ℚ} {n : ℤ} (h : x ≤ (n : ℚ)) : Double.roundHalfEven x ≤ n := by
  have hfl : ⌊x⌋ ≤ n := by
    have := Int.floor_le x
    exact_mod_cast (le_trans this h)
  rcases lt_or_eq_of_le hfl with hlt | heq
  · have := roundHalfEven_le_floor_succ x
    omega
  · have hx : x - ⌊x⌋ < 1 / 2 := by
      rw [heq]
      linarith
    unfold Double.roundHalfEven
    rw [if_pos hx]
    exact hfl

theorem roundHalfEven_mono {x y : ℚ} (h : x ≤ y) :
    Double.roundHalfEven x ≤ Double.roundHalfEven y := by
  have hfl : ⌊x⌋ ≤ ⌊y⌋ := Int.floor_mono h
  rcases lt_or_eq_of_le hfl with hlt | heq
  · have h1 := roundHalfEven_le_floor_succ x
    have h2 := floor_le_roundHalfEven y
    omega
  · have hfrac : x - ⌊x⌋ ≤ y - ⌊y⌋ := by
      rw [heq]
      linarith
    unfold Double.roundHalfEven
    rw [heq]
    rw [heq] at hfrac
    split_ifs <;> first | omega | linarith

theorem roundHalfEven_eq_of_near {x : ℚ} {n : ℤ} (hlo : (n : ℚ) - 1 / 2 < x)
    (hhi : x < (n : ℚ) + 1 / 2) : Double.roundHalfEven x = n := by
  rcases le_or_lt (n : ℚ) x with hge | hlt
  · have hfl : ⌊x⌋ = n := by
      rw [Int.floor_eq_iff]
      exact ⟨hge, by linarith⟩
    unfold Double.roundHalfEven
    rw [hfl, if_pos (by linarith)]
  · have hfl : ⌊x⌋ = n - 1 := by
      rw [Int.floor_eq_iff]
      push_cast
      exact ⟨by linarith, by linarith⟩
    unfold Double.roundHalfEven
    rw [hfl]
    push_cast
    rw [if_neg (by linarith), if_pos (by linarith)]
    ring

theorem pow_mul_zpow (n : ℕ) (k e : ℤ) (h : (n : ℤ) + k = e) :
    (((2 : ℤ) ^ n : ℤ) : ℚ) * 2 ^ k = 2 ^ e := by
  subst h
  rw [Int.cast_pow, Int.cast_ofNat, ← zpow_natCast, ← zpow_add₀ (by norm_num)]

theorem ulp_pos (q : ℚ) : (0 : ℚ) < 2 ^ Double.ulpExp q :=
  zpow_pos (by norm_num) _

theorem round_nonneg {q : ℚ} (h : 0 ≤ q) : 0 ≤ Double.round q := by
  unfold Double.round
  have hx : ((0 : ℤ) : ℚ) ≤ q / 2 ^ Double.ulpExp q := by
    simpa using div_nonneg h (ulp_pos q).le
  have := int_le_roundHalfEven hx
  exact mul_nonneg (by exact_mod_cast this) (ulp_pos q).le

theorem ulpExp_mono {a b : ℚ} (ha : 0 < a) (h : a ≤ b) : Double.ulpExp a ≤ Double.ulpExp b := by
  unfold Double.ulpExp
  rw [abs_of_pos ha, abs_of_pos (lt_of_lt_of_le ha h)]
  have := Int.log_mono_right (b := 2) ha h
  exact max_le_max (by omega) le_rfl

theorem round_mono {a b : ℚ} (ha : 0 ≤ a) (h : a ≤ b) : Double.round a ≤ Double.round b := by
  rcases eq_or_lt_of_le ha with h0 | hpos
  · subst h0
    have hz : Double.round 0 = 0 := by simp [Double.round, Double.roundHalfEven]
    rw [hz]
    exact round_nonneg h
  have hbpos : 0 < b := lt_of_lt_of_le hpos h
  have hk := ulpExp_mono hpos h
  rcases eq_or_lt_of_le hk with heq | hlt
  · unfold Double.round
    rw [heq]
    have hdiv : a / 2 ^ Double.ulpExp b ≤ b / 2 ^ Double.ulpExp b :=
      div_le_div_of_nonneg_right h (ulp_pos b).le
    have := roundHalfEven_mono hdiv
    exact mul_le_mul_of_nonneg_right (by exact_mod_cast this) (ulp_pos b).le
  · -- the binade of `b` starts at a power of two that separates the two roundings
    have hkb : Double.ulpExp b = Int.log 2 b - 52 := by
      have h1 : (-1074 : ℤ) ≤ Double.ulpExp a := le_max_right _ _
      unfold Double.ulpExp at hlt ⊢
      rw [abs_of_pos hbpos] at hlt ⊢
      rw [max_eq_left]
      by_contra hcon
      rw [max_eq_right (by omega)] at hlt
      unfold Double.ulpExp at h1
      omega
    have hka : Int.log 2 a - 52 ≤ Double.ulpExp a := by
      unfold Double.ulpExp
      rw [abs_of_pos hpos]
      exact le_max_left _ _
    set eb := Int.log 2 b with heb
    have hB_le_b : (2 : ℚ) ^ eb ≤ b := Int.zpow_log_le_self (by norm_num) hbpos
    have ha_lt : a < (2 : ℚ) ^ (Int.log 2 a + 1) := Int.lt_zpow_succ_log_self (by norm_num) a
    have ha_le_B : a ≤ (2 : ℚ) ^ eb :=
      le_trans ha_lt.le (zpow_le_zpow_right₀ (by norm_num) (by omega))
    -- upper side
    have hup : (2 : ℚ) ^ eb ≤ Double.round b := by
      unfold Double.round
      have hx : (((2 : ℤ) ^ (52 : ℕ) : ℤ) : ℚ) ≤ b / 2 ^ Double.ulpExp b := by
        rw [le_div_iff₀ (ulp_pos b), hkb]
        rw [pow_mul_zpow 52 (eb - 52) eb (by push_cast; ring)]
        exact hB_le_b
      have hr := int_le_roundHalfEven hx
      have hr' : (((2 : ℤ) ^ (52 : ℕ) : ℤ) : ℚ) ≤ (Double.roundHalfEven (b / 2 ^ Double.ulpExp b) : ℚ) := by
        exact_mod_cast hr
      calc (2 : ℚ) ^ eb = (((2 : ℤ) ^ (52 : ℕ) : ℤ) : ℚ) * 2 ^ Double.ulpExp b := by
            rw [hkb, pow_mul_zpow 52 (eb - 52) eb (by push_cast; ring)]
        _ ≤ _ := mul_le_mul_of_nonneg_right hr' (ulp_pos b).le
    -- lower side
    have hlow : Double.round a ≤ (2 : ℚ) ^ eb := by
      unfold Double.round
      have hn : 0 ≤ eb - Double.ulpExp a := by omega
      obtain ⟨n, hn'⟩ := Int.eq_ofNat_of_zero_le hn
      have hpow : (2 : ℚ) ^ eb = (((2 : ℤ) ^ n : ℤ) : ℚ) * 2 ^ Double.ulpExp a :=
        (pow_mul_zpow n (Double.ulpExp a) eb (by omega)).symm
      have hx : a / 2 ^ Double.ulpExp a ≤ (((2 : ℤ) ^ n : ℤ) : ℚ) := by
        rw [div_le_iff₀ (ulp_pos a), ← hpow]
        exact ha_le_B
      have hr := roundHalfEven_le_int hx
      have hr' : (Double.roundHalfEven (a / 2 ^ Double.ulpExp a) : ℚ) ≤ (((2 : ℤ) ^ n : ℤ) : ℚ) := by
        exact_mod_cast hr
      rw [hpow]
      exact mul_le_mul_of_nonneg_right hr' (ulp_pos a).le
    exact le_trans hlow hup

/-- Evaluation of `round` from the binade and the nearest integer multiple of the spacing. -/
theorem round_eq_of_near {q : ℚ} (e n : ℤ) (hpos : 0 < q) (hlo : (2 : ℚ) ^ e ≤ q)
    (hhi : q < (2 : ℚ) ^ (e + 1)) (he : -1074 ≤ e - 52)
    (hnlo : (n : ℚ) - 1 / 2 < q / 2 ^ (e - 52)) (hnhi : q / 2 ^ (e - 52) < (n : ℚ) + 1 / 2) :
    Double.round q = n * 2 ^ (e - 52) := by
  have hlog : Int.log 2 q = e := by
    have h1 : e ≤ Int.log 2 q := (Int.zpow_le_iff_le_log (by norm_num) hpos).mp hlo
    have h2 : Int.log 2 q < e + 1 := (Int.lt_zpow_iff_log_lt (by norm_num) hpos).mp hhi
    omega
  have hk : Double.ulpExp q = e - 52 := by
    unfold Double.ulpExp
    rw [abs_of_pos hpos, hlog, max_eq_left he]
  unfold Double.round
  rw [hk, roundHalfEven_eq_of_near hnlo hnhi]

theorem round_zero : Double.round 0 = 0 := by
  simp [Double.round, Double.roundHalfEven]

theorem round_one : Double.round 1 = 1 := by
  rw [round_eq_of_near 0 4503599627370496 (by norm_num) (by norm_num) (by norm_num)
    (by norm_num) (by norm_num) (by norm_num)]
  norm_num

theorem round_half : Double.round (1 / 2) = 1 / 2 := by
  rw [round_eq_of_near (-1) 4503599627370496 (by norm_num) (by norm_num) (by norm_num)
    (by norm_num) (by norm_num) (by norm_num)]
  norm_num

/-! ### The literals of `getLuminance` and `checkColorContrast` as doubles -/

theorem lit_0055 : Double.round (55 / 1000) = 7926335344172073 / 144115188075855872 := by
  rw [round_eq_of_near (-5) 7926335344172073 (by norm_num) (by norm_num) (by norm_num)
    (by norm_num) (by norm_num) (by norm_num)]
  norm_num

theorem lit_1055 : Double.round (1055 / 1000) = 4751297606875873 / 4503599627370496 := by
  rw [round_eq_of_near 0 4751297606875873 (by norm_num) (by norm_num) (by norm_num)
    (by norm_num) (by norm_num) (by norm_num)]
  norm_num

theorem one_add_0055 :
    Double.round (1 + 7926335344172073 / 144115188075855872)
      = 4751297606875873 / 4503599627370496 := by
  rw [round_eq_of_near 0 4751297606875873 (by norm_num) (by norm_num) (by norm_num)
    (by norm_num) (by norm_num) (by norm_num)]
  norm_num

theorem lit_02126 : Double.round (2126 / 10000) = 1914930561557935 / 9007199254740992 := by
  rw [round_eq_of_near (-3) 7659722246231740 (by norm_num) (by norm_num) (by norm_num)
    (by norm_num) (by norm_num) (by norm_num)]
  norm_num

theorem round_02126 :
    Double.round (1914930561557935 / 9007199254740992) = 1914930561557935 / 9007199254740992 := by
  rw [round_eq_of_near (-3) 7659722246231740 (by norm_num) (by norm_num) (by norm_num)
    (by norm_num) (by norm_num) (by norm_num)]
  norm_num

theorem lit_07152 : Double.round (7152 / 10000) = 6441948906990757 / 9007199254740992 := by
  rw [round_eq_of_near (-1) 6441948906990757 (by norm_num) (by norm_num) (by norm_num)
    (by norm_num) (by norm_num) (by norm_num)]
  norm_num

theorem round_07152 :
    Double.round (6441948906990757 / 9007199254740992) = 6441948906990757 / 9007199254740992 := by
  rw [round_eq_of_near (-1) 6441948906990757 (by norm_num) (by norm_num) (by norm_num)
    (by norm_num) (by norm_num) (by norm_num)]
  norm_num

theorem lit_00722 : Double.round (722 / 10000) = 5202558289538397 / 72057594037927936 := by
  rw [round_eq_of_near (-4) 5202558289538397 (by norm_num) (by norm_num) (by norm_num)
    (by norm_num) (by norm_num) (by norm_num)]
  norm_num

theorem round_00722 :
    Double.round (5202558289538397 / 72057594037927936)
      = 5202558289538397 / 72057594037927936 := by
  rw [round_eq_of_near (-4) 5202558289538397 (by norm_num) (by norm_num) (by norm_num)
    (by norm_num) (by norm_num) (by norm_num)]
  norm_num

theorem red_add_green :
    Double.round (1914930561557935 / 9007199254740992 + 6441948906990757 / 9007199254740992)
      = 2089219867137173 / 2251799813685248 := by
  rw [round_eq_of_near (-1) 8356879468548692 (by norm_num) (by norm_num) (by norm_num)
    (by norm_num) (by norm_num) (by norm_num)]
  norm_num

theorem weights_sum :
    Double.round (2089219867137173 / 2251799813685248 + 5202558289538397 / 72057594037927936)
      = 1 := by
  rw [round_eq_of_near (-1) 9007199254740992 (by norm_num) (by norm_num) (by norm_num)
    (by norm_num) (by norm_num) (by norm_num)]
  norm_num

theorem lit_005 : Double.round (5 / 100) = 3602879701896397 / 72057594037927936 := by
  rw [round_eq_of_near (-5) 7205759403792794 (by norm_num) (by norm_num) (by norm_num)
    (by norm_num) (by norm_num) (by norm_num)]
  norm_num

theorem round_005 :
    Double.round (3602879701896397 / 72057594037927936)
      = 3602879701896397 / 72057594037927936 := by
  rw [round_eq_of_near (-5) 7205759403792794 (by norm_num) (by norm_num) (by norm_num)
    (by norm_num) (by norm_num) (by norm_num)]
  norm_num

theorem one_add_005 :
    Double.round (1 + 3602879701896397 / 72057594037927936)
      = 4728779608739021 / 4503599627370496 := by
  rw [round_eq_of_near 0 4728779608739021 (by norm_num) (by norm_num) (by norm_num)
    (by norm_num) (by norm_num) (by norm_num)]
  norm_num

theorem white_over_black :
    Double.round (4728779608739021 / 4503599627370496 / (3602879701896397 / 72057594037927936))
      = 21 := by
  rw [round_eq_of_near 4 5910974510923776 (by norm_num) (by norm_num) (by norm_num)
    (by norm_num) (by norm_num) (by norm_num)]
  norm_num

/-! ## Contrast ratio -/

theorem toFixed2_of_floor (x : ℚ) (n : ℕ) (hx : 0 ≤ x) (hlo : (n : ℚ) ≤ x * 100 + 1 / 2)
    (hhi : x * 100 + 1 / 2 < (n : ℚ) + 1) :
    Double.toFixed2 x = toString (n / 100) ++ "." ++ Double.twoDigits (n % 100) := by
  have hfloor : ⌊|x| * 100 + 1 / 2⌋ = (n : ℤ) := by
    rw [abs_of_nonneg hx, Int.floor_eq_iff]
    exact ⟨by exact_mod_cast hlo, by exact_mod_cast hhi⟩
  unfold Double.toFixed2
  rw [hfloor, Int.toNat_ofNat, if_neg (not_lt.mpr hx)]

theorem contrastRatio_comm (pow : ℚ → ℚ → ℚ) (a b : RGB) :
    contrastRatio pow a b = contrastRatio pow b a := by
  unfold contrastRatio
  simp only [max_comm (getLuminance pow a), min_comm (getLuminance pow a)]

/-- C13: swapping foreground and background changes nothing: the ratio of two parsed
colours is the same in both orders, and so is everything `checkColorContrast` returns (the
ratio text and the four flags, or the error), for any two input strings. -/
theorem checkColorContrast_symmetric (pow : ℚ → ℚ → ℚ) (foreground background : String) :
    checkColorContrast pow foreground background
        = checkColorContrast pow background foreground
      ∧ ∀ a b : RGB, contrastRatio pow a b = contrastRatio pow b a := by
  refine ⟨?_, contrastRatio_comm pow⟩
  unfold checkColorContrast
  cases hexToRgb foreground <;> cases hexToRgb background <;>
    simp [contrastRatio_comm pow]

/-- C17: for every ratio the report carries `AA` exactly when the ratio is at least 4.5,
`AAA` exactly when it is at least 7, `AALarge` exactly when it is at least 3 and
`AAALarge` exactly when it is at least 4.5, each decided on its own; at 4.5 it is
`AA`, `AALarge`, `AAALarge` and not `AAA`. For two well-formed colours
`checkColorContrast` returns this report of their ratio. -/
theorem classifyContrast_thresholds (ratio : ℚ) :
    (∃ text AA AAA AALarge AAALarge,
        classifyContrast ratio = .report text AA AAA AALarge AAALarge
          ∧ (AA = true ↔ 9 / 2 ≤ ratio) ∧ (AAA = true ↔ 7 ≤ ratio)
          ∧ (AALarge = true ↔ 3 ≤ ratio) ∧ (AAALarge = true ↔ 9 / 2 ≤ ratio))
      ∧ classifyContrast (9 / 2) = .report "4.50" true false true true
      ∧ classifyContrast 3 = .report "3.00" false false true false
      ∧ classifyContrast 7 = .report "7.00" true true true true
      ∧ ∀ (pow : ℚ → ℚ → ℚ) (foreground background : String) (fg bg : RGB),
          hexToRgb foreground = some fg → hexToRgb background = some bg
          → checkColorContrast pow foreground background
              = classifyContrast (contrastRatio pow fg bg) := by
  refine ⟨⟨_, _, _, _, _, rfl, ?_, ?_, ?_, ?_⟩, ?_, ?_, ?_, ?_⟩
  · simp
  · simp
  · simp
  · simp
  · have ht := toFixed2_of_floor (9 / 2) 450 (by norm_num) (by norm_num) (by norm_num)
    have hs : toString (450 / 100) ++ "." ++ Double.twoDigits (450 % 100) = "4.50" := by decide
    rw [classifyContrast, ht, hs]
    simp; norm_num
  · have ht := toFixed2_of_floor 3 300 (by norm_num) (by norm_num) (by norm_num)
    have hs : toString (300 / 100) ++ "." ++ Double.twoDigits (300 % 100) = "3.00" := by decide
    rw [classifyContrast, ht, hs]
    simp; norm_num
  · have ht := toFixed2_of_floor 7 700 (by norm_num) (by norm_num) (by norm_num)
    have hs : toString (700 / 100) ++ "." ++ Double.twoDigits (700 % 100) = "7.00" := by decide
    rw [classifyContrast, ht, hs]
    simp; norm_num
  · intro pow foreground background fg bg hf hb
    simp [checkColorContrast, hf, hb]

/-! ## Luminance and ratio bounds -/

theorem hexDigit_le {c : Char} {d : Nat} (h : hexDigit c = some d) : d ≤ 15 := by
  unfold hexDigit at h
  split_ifs at h with h1 h2 h3
  · have hb : c.toNat ≤ 57 := h1.2
    have hv : c.toNat - 48 = d := by simpa using h
    omega
  · have hb : c.toNat ≤ 102 := h2.2
    have hv : c.toNat - 97 + 10 = d := by simpa using h
    omega
  · have hb : c.toNat ≤ 70 := h3.2
    have hv : c.toNat - 65 + 10 = d := by simpa using h
    omega

theorem matchHexGroups_le {cs : List Char} {rgb : RGB} (h : matchHexGroups cs = some rgb) :
    rgb.r ≤ 255 ∧ rgb.g ≤ 255 ∧ rgb.b ≤ 255 := by
  unfold matchHexGroups at h
  split at h
  · rename_i r1 r2 g1 g2 b1 b2
    cases h1 : hexDigit r1 <;> cases h2 : hexDigit r2 <;> cases h3 : hexDigit g1 <;>
      cases h4 : hexDigit g2 <;> cases h5 : hexDigit b1 <;> cases h6 : hexDigit b2 <;>
      simp [h1, h2, h3, h4, h5, h6, bind, Option.bind] at h
    subst h
    have := hexDigit_le h1
    have := hexDigit_le h2
    have := hexDigit_le h3
    have := hexDigit_le h4
    have := hexDigit_le h5
    have := hexDigit_le h6
    refine ⟨?_, ?_, ?_⟩ <;> simp only <;> omega
  · simp at h

theorem hexToRgb_le {hex : String} {rgb : RGB} (h : hexToRgb hex = some rgb) :
    rgb.r ≤ 255 ∧ rgb.g ≤ 255 ∧ rgb.b ≤ 255 := by
  unfold hexToRgb at h
  split at h <;> exact matchHexGroups_le h

theorem round_le_one {q : ℚ} (h0 : 0 ≤ q) (h1 : q ≤ 1) : Double.round q ≤ 1 := by
  have := round_mono h0 h1
  rwa [round_one] at this

theorem one_le_lit_1292 : (1 : ℚ) ≤ Double.round (1292 / 100) := by
  have := round_mono (a := 1) (b := 1292 / 100) (by norm_num) (by norm_num)
  rwa [round_one] at this

/-- A channel byte linearises into `[0, 1]` when `Math.pow(_, 2.4)` maps `[0, 1]` into
`[0, 1]`. -/
theorem linearize_bounds (pow : ℚ → ℚ → ℚ)
    (hpow : ∀ x, 0 ≤ x → x ≤ 1
      → 0 ≤ pow x (Double.round (24 / 10)) ∧ pow x (Double.round (24 / 10)) ≤ 1) (v : ℕ) (hv : v ≤ 255) :
    0 ≤ linearize pow v ∧ linearize pow v ≤ 1 := by
  have hv0 : (0 : ℚ) ≤ (v : ℚ) / 255 := by positivity
  have hv1 : (v : ℚ) / 255 ≤ 1 := by
    rw [div_le_one (by norm_num)]
    exact_mod_cast hv
  have hval0 : 0 ≤ Double.div v 255 := round_nonneg hv0
  have hval1 : Double.div v 255 ≤ 1 := round_le_one hv0 hv1
  unfold linearize
  simp only
  split_ifs with hthr
  · have hc := one_le_lit_1292
    have hq0 : 0 ≤ Double.div v 255 / Double.round (1292 / 100) :=
      div_nonneg hval0 (by linarith)
    have hq1 : Double.div v 255 / Double.round (1292 / 100) ≤ 1 := by
      rw [div_le_one (by linarith)]
      linarith
    exact ⟨round_nonneg hq0, round_le_one hq0 hq1⟩
  · have hsum0 : 0 ≤ Double.div v 255 + Double.round (55 / 1000) := by
      rw [lit_0055]
      linarith
    have hsum1 : Double.add (Double.div v 255) (Double.round (55 / 1000))
        ≤ 4751297606875873 / 4503599627370496 := by
      have := round_mono hsum0 (b := 1 + Double.round (55 / 1000)) (by linarith)
      rw [lit_0055] at this
      rw [one_add_0055] at this
      rw [lit_0055]
      exact this
    have hsum0' : 0 ≤ Double.add (Double.div v 255) (Double.round (55 / 1000)) :=
      round_nonneg hsum0
    have hb0 : 0 ≤ Double.add (Double.div v 255) (Double.round (55 / 1000))
        / Double.round (1055 / 1000) := by
      rw [lit_1055]
      exact div_nonneg hsum0' (by norm_num)
    have hb1 : Double.add (Double.div v 255) (Double.round (55 / 1000))
        / Double.round (1055 / 1000) ≤ 1 := by
      rw [lit_1055, div_le_one (by norm_num)]
      exact hsum1
    exact hpow _ (round_nonneg hb0) (round_le_one hb0 hb1)

/-- The relative luminance of a colour with byte channels lies in `[0, 1]`. -/
theorem getLuminance_bounds (pow : ℚ → ℚ → ℚ)
    (hpow : ∀ x, 0 ≤ x → x ≤ 1
      → 0 ≤ pow x (Double.round (24 / 10)) ∧ pow x (Double.round (24 / 10)) ≤ 1) (rgb : RGB)
    (hr : rgb.r ≤ 255) (hg : rgb.g ≤ 255) (hb : rgb.b ≤ 255) :
    0 ≤ getLuminance pow rgb ∧ getLuminance pow rgb ≤ 1 := by
  obtain ⟨r0, r1⟩ := linearize_bounds pow hpow rgb.r hr
  obtain ⟨g0, g1⟩ := linearize_bounds pow hpow rgb.g hg
  obtain ⟨b0, b1⟩ := linearize_bounds pow hpow rgb.b hb
  unfold getLuminance
  simp only [Double.add, Double.mul, lit_02126, lit_07152, lit_00722]
  set R := linearize pow rgb.r
  set G := linearize pow rgb.g
  set B := linearize pow rgb.b
  have hR0 : (0 : ℚ) ≤ 1914930561557935 / 9007199254740992 * R := by positivity
  have hG0 : (0 : ℚ) ≤ 6441948906990757 / 9007199254740992 * G := by positivity
  have hB0 : (0 : ℚ) ≤ 5202558289538397 / 72057594037927936 * B := by positivity
  have hR1 : Double.round (1914930561557935 / 9007199254740992 * R)
      ≤ 1914930561557935 / 9007199254740992 := by
    have := round_mono hR0 (b := 1914930561557935 / 9007199254740992) (by nlinarith)
    rwa [round_02126] at this
  have hG1 : Double.round (6441948906990757 / 9007199254740992 * G)
      ≤ 6441948906990757 / 9007199254740992 := by
    have := round_mono hG0 (b := 6441948906990757 / 9007199254740992) (by nlinarith)
    rwa [round_07152] at this
  have hB1 : Double.round (5202558289538397 / 72057594037927936 * B)
      ≤ 5202558289538397 / 72057594037927936 := by
    have := round_mono hB0 (b := 5202558289538397 / 72057594037927936) (by nlinarith)
    rwa [round_00722] at this
  have hRG0 : 0 ≤ Double.round (1914930561557935 / 9007199254740992 * R)
      + Double.round (6441948906990757 / 9007199254740992 * G) :=
    add_nonneg (round_nonneg hR0) (round_nonneg hG0)
  have hRG1 : Double.round (Double.round (1914930561557935 / 9007199254740992 * R)
      + Double.round (6441948906990757 / 9007199254740992 * G))
      ≤ 2089219867137173 / 2251799813685248 := by
    have := round_mono hRG0 (b := 1914930561557935 / 9007199254740992
      + 6441948906990757 / 9007199254740992) (by linarith)
    rwa [red_add_green] at this
  have hsum0 : 0 ≤ Double.round (Double.round (1914930561557935 / 9007199254740992 * R)
      + Double.round (6441948906990757 / 9007199254740992 * G))
      + Double.round (5202558289538397 / 72057594037927936 * B) :=
    add_nonneg (round_nonneg hRG0) (round_nonneg hB0)
  refine ⟨round_nonneg hsum0, ?_⟩
  have := round_mono hsum0 (b := 2089219867137173 / 2251799813685248
    + 5202558289538397 / 72057594037927936) (by linarith)
  rwa [weights_sum] at this

/-- The two sums of `checkColorContrast` for luminances in `[0, 1]`: the divisor is at
least the double `0.05`, the dividend lies between the divisor and the double `1.05`. -/
theorem ratio_terms (l1 l2 : ℚ) (h10 : 0 ≤ l1) (h11 : l1 ≤ 1) (h20 : 0 ≤ l2) (h21 : l2 ≤ 1) :
    3602879701896397 / 72057594037927936 ≤ Double.add (min l1 l2) (Double.round (5 / 100))
      ∧ Double.add (min l1 l2) (Double.round (5 / 100))
          ≤ Double.add (max l1 l2) (Double.round (5 / 100))
      ∧ Double.add (max l1 l2) (Double.round (5 / 100))
          ≤ 4728779608739021 / 4503599627370496 := by
  have hmin0 : 0 ≤ min l1 l2 := le_min h10 h20
  have hmax1 : max l1 l2 ≤ 1 := max_le h11 h21
  have hmm : min l1 l2 ≤ max l1 l2 := le_trans (min_le_left _ _) (le_max_left _ _)
  simp only [Double.add, lit_005]
  refine ⟨?_, ?_, ?_⟩
  · have := round_mono (a := 3602879701896397 / 72057594037927936)
      (b := min l1 l2 + 3602879701896397 / 72057594037927936) (by norm_num) (by linarith)
    rwa [round_005] at this
  · exact round_mono (by linarith) (by linarith)
  · have := round_mono (a := max l1 l2 + 3602879701896397 / 72057594037927936)
      (b := 1 + 3602879701896397 / 72057594037927936) (by linarith) (by linarith)
    rwa [one_add_005] at this

theorem contrastRatio_bounds_of_luminance (l1 l2 : ℚ) (h10 : 0 ≤ l1) (h11 : l1 ≤ 1)
    (h20 : 0 ≤ l2) (h21 : l2 ≤ 1) :
    1 ≤ Double.div (Double.add (max l1 l2) (Double.round (5 / 100)))
          (Double.add (min l1 l2) (Double.round (5 / 100)))
      ∧ Double.div (Double.add (max l1 l2) (Double.round (5 / 100)))
          (Double.add (min l1 l2) (Double.round (5 / 100))) ≤ 21 := by
  obtain ⟨hden, hle, hnum⟩ := ratio_terms l1 l2 h10 h11 h20 h21
  set num := Double.add (max l1 l2) (Double.round (5 / 100))
  set den := Double.add (min l1 l2) (Double.round (5 / 100))
  have hdpos : 0 < den := lt_of_lt_of_le (by norm_num) hden
  unfold Double.div
  constructor
  · have h1 : (1 : ℚ) ≤ num / den := by
      rw [le_div_iff₀ hdpos]
      linarith
    have := round_mono (a := 1) (b := num / den) (by norm_num) h1
    rwa [round_one] at this
  · have hq : num / den
        ≤ 4728779608739021 / 4503599627370496 / (3602879701896397 / 72057594037927936) := by
      rw [div_le_div_iff₀ hdpos (by norm_num)]
      have hnum0 : 0 ≤ num := le_trans hdpos.le hle
      nlinarith
    have hq0 : 0 ≤ num / den := div_nonneg (le_trans hdpos.le hle) hdpos.le
    have := round_mono hq0 hq
    rwa [white_over_black] at this

/-- C15: for two well-formed colours, when the engine's `Math.pow(_, 2.4)` maps `[0, 1]`
into `[0, 1]`, each relative luminance `getLuminance` computes lies in `[0, 1]`, the divisor
`min(L1, L2) + 0.05` of the ratio is positive, so the division is never by zero, and
the ratio lies in `[1, 21]`. -/
theorem luminance_and_ratio_bounds (pow : ℚ → ℚ → ℚ)
    (hpow : ∀ x, 0 ≤ x → x ≤ 1
      → 0 ≤ pow x (Double.round (24 / 10)) ∧ pow x (Double.round (24 / 10)) ≤ 1)
    (foreground background : String) (fg bg : RGB)
    (hfg : hexToRgb foreground = some fg) (hbg : hexToRgb background = some bg) :
    (0 ≤ getLuminance pow fg ∧ getLuminance pow fg ≤ 1)
      ∧ (0 ≤ getLuminance pow bg ∧ getLuminance pow bg ≤ 1)
      ∧ 0 < Double.add (min (getLuminance pow fg) (getLuminance pow bg)) (Double.round (5 / 100))
      ∧ 1 ≤ contrastRatio pow fg bg ∧ contrastRatio pow fg bg ≤ 21 := by
  obtain ⟨fr, fgr, fb⟩ := hexToRgb_le hfg
  obtain ⟨br, bgr, bb⟩ := hexToRgb_le hbg
  have hf := getLuminance_bounds pow hpow fg fr fgr fb
  have hb := getLuminance_bounds pow hpow bg br bgr bb
  have hterms := ratio_terms _ _ hf.1 hf.2 hb.1 hb.2
  have hratio := contrastRatio_bounds_of_luminance _ _ hf.1 hf.2 hb.1 hb.2
  exact ⟨hf, hb, lt_of_lt_of_le (by norm_num) hterms.1, hratio⟩

/-- Witness of C15: `#336699` against `#ffffff`, with the identity on the base standing in
for `Math.pow`. -/
theorem luminance_and_ratio_bounds_witness :
    1 ≤ contrastRatio (fun x _ => x) { r := 51, g := 102, b := 153 }
          { r := 255, g := 255, b := 255 }
      ∧ contrastRatio (fun x _ => x) { r := 51, g := 102, b := 153 }
          { r := 255, g := 255, b := 255 } ≤ 21 :=
  (luminance_and_ratio_bounds (fun x _ => x) (fun _ h0 h1 => ⟨h0, h1⟩) "#336699" "#ffffff"
    _ _ rfl rfl).2.2.2

/-- C14: for every well-formed colour, when the engine's `Math.pow(_, 2.4)` maps `[0, 1]`
into `[0, 1]`, the ratio of the colour against itself is exactly 1, `checkColorContrast`
reports it as `1.00`, and none of `AA`, `AAA`, `AALarge`, `AAALarge` holds. -/
theorem contrast_with_itself (pow : ℚ → ℚ → ℚ)
    (hpow : ∀ x, 0 ≤ x → x ≤ 1
      → 0 ≤ pow x (Double.round (24 / 10)) ∧ pow x (Double.round (24 / 10)) ≤ 1)
    (color : String) (rgb : RGB) (hrgb : hexToRgb color = some rgb) :
    contrastRatio pow rgb rgb = 1
      ∧ checkColorContrast pow color color = .report "1.00" false false false false := by
  obtain ⟨hr, hg, hb⟩ := hexToRgb_le hrgb
  have hl := getLuminance_bounds pow hpow rgb hr hg hb
  have hterms := ratio_terms _ _ hl.1 hl.2 hl.1 hl.2
  have hratio : contrastRatio pow rgb rgb = 1 := by
    unfold contrastRatio
    simp only [max_self, min_self] at hterms ⊢
    have hpos : (0 : ℚ) < Double.add (getLuminance pow rgb) (Double.round (5 / 100)) :=
      lt_of_lt_of_le (by norm_num) hterms.1
    unfold Double.div
    rw [div_self hpos.ne', round_one]
  refine ⟨hratio, ?_⟩
  have ht := toFixed2_of_floor 1 100 (by norm_num) (by norm_num) (by norm_num)
  have hs : toString (100 / 100) ++ "." ++ Double.twoDigits (100 % 100) = "1.00" := by decide
  simp only [checkColorContrast, hrgb, hratio, classifyContrast, ht, hs]
  simp; norm_num

/-- Witness of C14: `#336699` against itself, with the identity on the base standing in
for `Math.pow`. -/
theorem contrast_with_itself_witness :
    checkColorContrast (fun x _ => x) "#336699" "#336699"
      = .report "1.00" false false false false :=
  (contrast_with_itself (fun x _ => x) (fun _ h0 h1 => ⟨h0, h1⟩) "#336699" _ rfl).2

/-! ## Black against white -/

theorem linearize_zero (pow : ℚ → ℚ → ℚ) : linearize pow 0 = 0 := by
  have hthr : (0 : ℚ) ≤ Double.round (3928 / 100000) := round_nonneg (by norm_num)
  simp [linearize, Double.div, round_zero, hthr]

theorem linearize_full (pow : ℚ → ℚ → ℚ) (hpow : pow 1 (Double.round (24 / 10)) = 1) :
    linearize pow 255 = 1 := by
  have hthr : ¬ (1 : ℚ) ≤ Double.round (3928 / 100000) := by
    have := round_mono (a := 3928 / 100000) (b := 1 / 2) (by norm_num) (by norm_num)
    rw [round_half] at this
    intro h
    linarith
  have hval : Double.div 255 255 = 1 := by
    unfold Double.div
    norm_num [round_one]
  unfold linearize
  simp only [hval, if_neg hthr]
  have hbase : Double.div (Double.add 1 (Double.round (55 / 1000))) (Double.round (1055 / 1000))
      = 1 := by
    unfold Double.div Double.add
    rw [lit_0055, one_add_0055, lit_1055, div_self (by norm_num), round_one]
  rw [hbase, hpow]

theorem getLuminance_black (pow : ℚ → ℚ → ℚ) :
    getLuminance pow { r := 0, g := 0, b := 0 } = 0 := by
  simp [getLuminance, linearize_zero, Double.add, Double.mul, round_zero]

theorem getLuminance_white (pow : ℚ → ℚ → ℚ) (hpow : pow 1 (Double.round (24 / 10)) = 1) :
    getLuminance pow { r := 255, g := 255, b := 255 } = 1 := by
  simp only [getLuminance, Nat.cast_ofNat, linearize_full pow hpow, Double.add, Double.mul,
    mul_one, lit_02126, lit_07152, lit_00722, round_02126, round_07152, round_00722, red_add_green,
    weights_sum]

/-- C16: when the engine's `Math.pow(1, 2.4)` is 1, black has relative
luminance 0 and white has relative luminance 1 (the three rounded channel weights add up
to exactly 1), their ratio is exactly 21, and `checkColorContrast('#000000', '#FFFFFF')`
reports `21.00` with all four flags set. -/
theorem black_on_white (pow : ℚ → ℚ → ℚ) (hpow : pow 1 (Double.round (24 / 10)) = 1) :
    hexToRgb "#000000" = some { r := 0, g := 0, b := 0 }
      ∧ hexToRgb "#FFFFFF" = some { r := 255, g := 255, b := 255 }
      ∧ getLuminance pow { r := 0, g := 0, b := 0 } = 0
      ∧ getLuminance pow { r := 255, g := 255, b := 255 } = 1
      ∧ contrastRatio pow { r := 0, g := 0, b := 0 } { r := 255, g := 255, b := 255 } = 21
      ∧ checkColorContrast pow "#000000" "#FFFFFF" = .report "21.00" true true true true := by
  have hb : hexToRgb "#000000" = some { r := 0, g := 0, b := 0 } := by decide
  have hw : hexToRgb "#FFFFFF" = some { r := 255, g := 255, b := 255 } := by decide
  have hratio : contrastRatio pow { r := 0, g := 0, b := 0 } { r := 255, g := 255, b := 255 }
      = 21 := by
    unfold contrastRatio
    simp only [getLuminance_black, getLuminance_white pow hpow]
    have hmax : max (0 : ℚ) 1 = 1 := by norm_num
    have hmin : min (0 : ℚ) 1 = 0 := by norm_num
    rw [hmax, hmin]
    unfold Double.div Double.add
    rw [lit_005, one_add_005, zero_add, round_005, white_over_black]
  refine ⟨hb, hw, getLuminance_black pow, getLuminance_white pow hpow, hratio, ?_⟩
  have ht := toFixed2_of_floor 21 2100 (by norm_num) (by norm_num) (by norm_num)
  have hs : toString (2100 / 100) ++ "." ++ Double.twoDigits (2100 % 100) = "21.00" := by
    decide
  simp only [checkColorContrast, hb, hw, hratio, classifyContrast, ht, hs]
  simp; norm_num

/-- Witness of C16: the identity on the base stands in for `Math.pow`. -/
theorem black_on_white_witness :
    checkColorContrast (fun x _ => x) "#000000" "#FFFFFF"
      = .report "21.00" true true true true :=
  (black_on_white (fun x _ => x) rfl).2.2.2.2.2

/-! ## Decoration accessors -/

theorem looksUp_read (mapping : List (String × JSValue)) (key : String) :
    Spec.LooksUp mapping key (.ok ((assoc key mapping).getD (inheritedMember key))) := by
  refine ⟨⟨_, rfl⟩, ?_, ?_⟩
  · intro v hv
    simp [hv]
  · intro hv hkey
    simp [hv, inheritedMember_of_not_mem hkey]

/-- C18, as stated, fails: `decoratedConfig` has the sections `layout`, `hyperlinks`,
`numbering`, `imagery` (with `parameters`, `guidelines`, `brandStyle`) and
`topicChronology`, its `layout` has no `containers` entry, and `getContainer` throws a
`TypeError`, with the default size and with the size `sm`. Its `layout` has no
`constructor` entry either, and `getLayout('constructor')` does not return `undefined`
but the member every object inherits. -/
theorem getContainer_without_containers_throws :
    (∃ layout, getProp decoratedConfig "layout" = .ok (.obj layout)
        ∧ assoc "containers" layout = none)
      ∧ (∃ v, getProp decoratedConfig "hyperlinks" = .ok (.obj v))
      ∧ (∃ v, getProp decoratedConfig "numbering" = .ok (.obj v))
      ∧ (∃ imagery p g b, getProp decoratedConfig "imagery" = .ok (.obj imagery)
          ∧ assoc "parameters" imagery = some (.obj p)
          ∧ assoc "guidelines" imagery = some (.obj g)
          ∧ assoc "brandStyle" imagery = some (.obj b))
      ∧ (∃ v, getProp decoratedConfig "topicChronology" = .ok (.obj v))
      ∧ getContainer (BrandingManager.new decoratedConfig) none = .error .typeError
      ∧ getContainer (BrandingManager.new decoratedConfig) (some "sm") = .error .typeError
      ∧ assoc "constructor" [("header", JSValue.obj [("height", .str "64px")])] = none
      ∧ getLayout (BrandingManager.new decoratedConfig) "constructor"
          = .ok (.inherited "constructor") :=
  ⟨⟨_, rfl, rfl⟩, ⟨_, rfl⟩, ⟨_, rfl⟩, ⟨_, _, _, _, rfl, rfl, rfl, rfl⟩, ⟨_, rfl⟩, rfl, rfl,
    rfl, rfl⟩

/-- C18, amended: over a configuration whose `layout`, `hyperlinks`, `numbering`,
`imagery`, `imagery.parameters` and `imagery.guidelines` are mappings, and for every
argument, the accessors `getLayout`, `getHyperlinkStyle`, `getNumbering`,
`getImageryGuidelines`, `getBrandStyle` and `getTopicStructure` do not throw, return the
requested entry when it is there, and return `undefined` when it is missing and its name
is not that of a member every object inherits (`constructor`, `toString`, ...).
`getImageryParameters` returns `undefined` for such a missing category and for a category
that is `null`, whatever the variant, and looks the variant up in the same way when the
category is a mapping.
`getContainer` looks the size up in the same way when `layout.containers` is a mapping;
when `layout` has no `containers` entry it throws a `TypeError`. -/
theorem decoration_accessors (self : BrandingManager)
    (sections layout hyperlinks numbering imagery parameters guidelines :
      List (String × JSValue))
    (hconfig : self.config = .obj sections)
    (hlayout : assoc "layout" sections = some (.obj layout))
    (hhyperlinks : assoc "hyperlinks" sections = some (.obj hyperlinks))
    (hnumbering : assoc "numbering" sections = some (.obj numbering))
    (himagery : assoc "imagery" sections = some (.obj imagery))
    (hparameters : assoc "parameters" imagery = some (.obj parameters))
    (hguidelines : assoc "guidelines" imagery = some (.obj guidelines)) :
    (∀ type, Spec.LooksUp layout type (getLayout self type))
      ∧ (∀ state, Spec.LooksUp hyperlinks (state.getD "style") (getHyperlinkStyle self state))
      ∧ (∀ type, Spec.LooksUp numbering type (getNumbering self type))
      ∧ (∀ type, Spec.LooksUp guidelines type (getImageryGuidelines self type))
      ∧ (∀ category variant, assoc category parameters = none → category ∉ inheritedNames
          → getImageryParameters self category variant = .ok .undefined)
      ∧ (∀ category variant, assoc category parameters = some .null
          → getImageryParameters self category variant = .ok .undefined)
      ∧ (∀ category entry variant, assoc category parameters = some (.obj entry)
          → Spec.LooksUp entry (variant.getD "standard")
              (getImageryParameters self category variant))
      ∧ Spec.LooksUp imagery "brandStyle" (getBrandStyle self)
      ∧ Spec.LooksUp sections "topicChronology" (getTopicStructure self)
      ∧ (∀ containers, assoc "containers" layout = some (.obj containers)
          → ∀ size, Spec.LooksUp containers (size.getD "xl") (getContainer self size))
      ∧ (assoc "containers" layout = none
          → ∀ size, getContainer self size = .error .typeError) := by
  refine ⟨?_, ?_, ?_, ?_, ?_, ?_, ?_, ?_, ?_, ?_, ?_⟩
  · intro type
    have h : getLayout self type = .ok ((assoc type layout).getD (inheritedMember type)) := by
      simp [getLayout, hconfig, hlayout, bind, Except.bind, getProp_obj]
    rw [h]
    exact looksUp_read layout type
  · intro state
    have h : getHyperlinkStyle self state
        = .ok ((assoc (state.getD "style") hyperlinks).getD
            (inheritedMember (state.getD "style"))) := by
      simp [getHyperlinkStyle, hconfig, hhyperlinks, bind, Except.bind, getProp_obj]
    rw [h]
    exact looksUp_read hyperlinks _
  · intro type
    have h : getNumbering self type
        = .ok ((assoc type numbering).getD (inheritedMember type)) := by
      simp [getNumbering, hconfig, hnumbering, bind, Except.bind, getProp_obj]
    rw [h]
    exact looksUp_read numbering type
  · intro type
    have h : getImageryGuidelines self type
        = .ok ((assoc type guidelines).getD (inheritedMember type)) := by
      simp [getImageryGuidelines, hconfig, himagery, hguidelines, bind, Except.bind,
        getProp_obj]
    rw [h]
    exact looksUp_read guidelines type
  · intro category variant hmissing hname
    simp [getImageryParameters, hconfig, himagery, hparameters, bind, Except.bind, getProp_obj,
      hmissing, inheritedMember_of_not_mem hname, getPropOptional]
  · intro category variant hnull
    simp [getImageryParameters, hconfig, himagery, hparameters, bind, Except.bind, getProp_obj,
      hnull, getPropOptional]
  · intro category entry variant hentry
    have h : getImageryParameters self category variant
        = .ok ((assoc (variant.getD "standard") entry).getD
            (inheritedMember (variant.getD "standard"))) := by
      simp [getImageryParameters, hconfig, himagery, hparameters, bind, Except.bind,
        getProp_obj, hentry, getPropOptional]
    rw [h]
    exact looksUp_read entry _
  · have h : getBrandStyle self
        = .ok ((assoc "brandStyle" imagery).getD (inheritedMember "brandStyle")) := by
      simp [getBrandStyle, hconfig, himagery, bind, Except.bind, getProp_obj]
    rw [h]
    exact looksUp_read imagery _
  · have h : getTopicStructure self
        = .ok ((assoc "topicChronology" sections).getD
            (inheritedMember "topicChronology")) := by
      simp [getTopicStructure, hconfig, getProp_obj]
    rw [h]
    exact looksUp_read sections _
  · intro containers hcontainers size
    have h : getContainer self size
        = .ok ((assoc (size.getD "xl") containers).getD
            (inheritedMember (size.getD "xl"))) := by
      simp [getContainer, hconfig, hlayout, hcontainers, bind, Except.bind, getProp_obj]
    rw [h]
    exact looksUp_read containers _
  · intro hmissing size
    have hread : getProp JSValue.undefined (size.getD "xl") = .error .typeError := rfl
    have hname : inheritedMember "containers" = .undefined := rfl
    simp [getContainer, hconfig, hlayout, hmissing, bind, Except.bind, getProp_obj, hread,
      hname]

/-- Witness of amended C18: over `containerConfig` a missing layout entry, a missing
imagery category, a missing variant of the category `lens` and a missing container size
all read `undefined`, and the topic structure is the section of the configuration. -/
theorem decoration_accessors_witness :
    getLayout (BrandingManager.new containerConfig) "footer" = .ok .undefined
      ∧ getImageryParameters (BrandingManager.new containerConfig) "tone" none = .ok .undefined
      ∧ getImageryParameters (BrandingManager.new containerConfig) "lens" (some "wide")
          = .ok .undefined
      ∧ getTopicStructure (BrandingManager.new containerConfig)
          = .ok (.obj [("order", .arr [.str "intro"])])
      ∧ getContainer (BrandingManager.new containerConfig) (some "sm") = .ok .undefined
      ∧ getContainer (BrandingManager.new containerConfig) none = .ok (.str "1280px") :=
  have h := decoration_accessors (BrandingManager.new containerConfig)
    [("layout", .obj [("containers", .obj [("xl", .str "1280px")])]),
      ("hyperlinks", .obj [("style", .obj [("color", .str "#0066ff")])]),
      ("numbering", .obj [("lists", .obj [("style", .str "decimal")])]),
      ("imagery", .obj [("parameters", .obj [("lens", .obj [("standard", .str "50mm")])]),
        ("guidelines", .obj [("formats", .arr [.str "webp"])]),
        ("brandStyle", .obj [("mood", .str "calm")])]),
      ("topicChronology", .obj [("order", .arr [.str "intro"])])]
    [("containers", .obj [("xl", .str "1280px")])]
    [("style", .obj [("color", .str "#0066ff")])]
    [("lists", .obj [("style", .str "decimal")])]
    [("parameters", .obj [("lens", .obj [("standard", .str "50mm")])]),
      ("guidelines", .obj [("formats", .arr [.str "webp"])]),
      ("brandStyle", .obj [("mood", .str "calm")])]
    [("lens", .obj [("standard", .str "50mm")])]
    [("formats", .arr [.str "webp"])]
    rfl rfl rfl rfl rfl rfl rfl
  ⟨(h.1 "footer").2.2 rfl (by decide),
   h.2.2.2.2.1 "tone" none rfl (by decide),
   (h.2.2.2.2.2.2.1 "lens" _ (some "wide") rfl).2.2 rfl (by decide),
   (h.2.2.2.2.2.2.2.2.1).2.1 _ rfl,
   (h.2.2.2.2.2.2.2.2.2.1 _ rfl (some "sm")).2.2 rfl (by decide),
   (h.2.2.2.2.2.2.2.2.2.1 _ rfl none).2.1 _ rfl⟩

/-! ## Reachable theme states -/

/-- A call of `setTheme` leaves the instance as it was, or commits the name: one that
`config.themes` binds to a truthy value, or the name of an inherited member that is no
key of `config.themes`. -/
theorem setTheme_self_cases (self : BrandingManager) (env : Browser) (themeName : String)
    (themes : List (String × JSValue))
    (hthemes : getProp self.config "themes" = .ok (.obj themes)) :
    (setTheme self env themeName).self = self
      ∨ ((setTheme self env themeName).self
            = { config := self.config, currentTheme := themeName }
          ∧ ((∃ theme, assoc themeName themes = some theme ∧ theme.truthy = true)
              ∨ (assoc themeName themes = none ∧ themeName ∈ inheritedNames))) := by
  cases hk : assoc themeName themes with
  | none =>
    by_cases hname : themeName ∈ inheritedNames
    · right
      rw [setTheme_of_inherited self env themeName themes hthemes hk hname]
      exact ⟨rfl, Or.inr ⟨rfl, hname⟩⟩
    · left
      rw [setTheme_of_absent self env themeName themes hthemes hk hname]
  | some theme =>
    unfold setTheme
    rw [hthemes]
    simp only [bind, Except.bind, getProp_obj, hk, Option.getD_some]
    by_cases ht : theme.truthy = true
    · right
      simp [ht]
    · left
      simp [ht]

/-- C19, at the failing input: over `exampleConfig`, which declares `light` and `dark`, on
the fresh instance, `setTheme('__proto__')` returns normally, so the instance it leaves is
a reachable one. Its active theme name `__proto__` is no key of `config.themes`;
`getTheme()` returns the prototype every object inherits from, which has no `colors`, and
`getColor` and `getTextColor` throw a `TypeError`. -/
theorem reachable_undeclared_theme :
    Reachable exampleConfig
        (setTheme (BrandingManager.new exampleConfig) emptyBrowser "__proto__").self
      ∧ (setTheme (BrandingManager.new exampleConfig) emptyBrowser "__proto__").result = .ok ()
      ∧ (setTheme (BrandingManager.new exampleConfig) emptyBrowser "__proto__").self.currentTheme
          = "__proto__"
      ∧ assoc "__proto__" [("light", exampleTheme), ("dark", exampleTheme)] = none
      ∧ getTheme (setTheme (BrandingManager.new exampleConfig) emptyBrowser "__proto__").self none
          = .ok (.inherited "__proto__")
      ∧ getColor (setTheme (BrandingManager.new exampleConfig) emptyBrowser "__proto__").self
          "primary" = .error .typeError
      ∧ getTextColor (setTheme (BrandingManager.new exampleConfig) emptyBrowser "__proto__").self
          none = .error .typeError :=
  ⟨Reachable.afterSetTheme _ emptyBrowser "__proto__" Reachable.constructed,
    rfl, rfl, rfl, rfl, rfl, rfl⟩

/-! ## Publishing client -/

open DocsPublishingClient

/-- C20, at a failing input: for a file whose frontmatter gives `title: From File` and an
author, and options that supply the title `From Option` and the author `John Doe`, the
request `publishFile` builds carries the frontmatter's title and author. The spread
`...metadata` comes after the three computed fields and overwrites them. -/
theorem publishFile_frontmatter_overwrites_options :
    getProp optionsWithTitle "title" = .ok (.str "From Option")
      ∧ getProp optionsWithTitle "author" = .ok (.str "John Doe")
      ∧ extractFrontmatter fileWithFrontmatter
          = [("title", .str "From File"), ("author", .str "File Author")]
      ∧ publishFile clientConfig fileWithFrontmatter "getting-started" optionsWithTitle
          = .ok (.obj [("content", .str fileWithFrontmatter), ("format", .str "markdown"),
              ("brand", .str "example-brand"), ("category", .str "general"),
              ("metadata", .obj [("title", .str "From File"), ("author", .str "File Author"),
                ("version", .str "1.0.0")]),
              ("options", .obj [("validate", .bool true), ("transform", .bool true),
                ("publish", .bool true)])]) := by
  refine ⟨rfl, rfl, ?_, ?_⟩
  · rfl
  · rfl

/-! ## Frontmatter lines -/

theorem indexOfColon_split (before raw : List Char) (h : ':' ∉ before) :
    indexOfColon (before ++ ':' :: raw) = some before.length := by
  induction before with
  | nil => simp [indexOfColon]
  | cons c rest ih =>
    have hc : c ≠ ':' := fun hc => h (by simp [hc])
    have hrest : ':' ∉ rest := fun hr => h (List.mem_cons_of_mem _ hr)
    simp [indexOfColon, hc, ih hrest]

theorem indexOfColon_eq_some {line : List Char} {i : Nat} (h : indexOfColon line = some i) :
    ∃ before raw, line = before ++ ':' :: raw ∧ ':' ∉ before ∧ before.length = i := by
  induction line generalizing i with
  | nil => simp [indexOfColon] at h
  | cons c rest ih =>
    by_cases hc : c = ':'
    · subst hc
      simp [indexOfColon] at h
      exact ⟨[], rest, rfl, by simp, by simpa using h⟩
    · simp only [indexOfColon, hc, if_false, Option.map_eq_some'] at h
      obtain ⟨j, hj, hij⟩ := h
      obtain ⟨before, raw, hline, hno, hlen⟩ := ih hj
      refine ⟨c :: before, raw, by rw [hline]; rfl, ?_, by simp [hlen, hij]⟩
      intro hmem
      rcases List.mem_cons.mp hmem with h1 | h1
      · exact hc h1.symm
      · exact hno h1

theorem indexOfColon_eq_none {line : List Char} (h : indexOfColon line = none) :
    ':' ∉ line := by
  induction line with
  | nil => simp
  | cons c rest ih =>
    by_cases hc : c = ':'
    · subst hc
      simp [indexOfColon] at h
    · simp only [indexOfColon, hc, if_false, Option.map_eq_none'] at h
      intro hmem
      rcases List.mem_cons.mp hmem with h1 | h1
      · exact hc h1.symm
      · exact ih h h1

theorem substring_before (before raw : List Char) :
    substring (before ++ ':' :: raw) 0 before.length = before := by
  simp [substring]

theorem substring_after (before raw : List Char) :
    substring (before ++ ':' :: raw) (before.length + 1) (before ++ ':' :: raw).length = raw := by
  have h1 : min (before.length + 1) (before.length + (raw.length + 1)) = before.length + 1 := by
    omega
  have h2 : before.length + (raw.length + 1) - (before.length + 1) = raw.length := by omega
  have h3 : (before ++ ':' :: raw).drop (before.length + 1) = raw := by
    rw [show before ++ ':' :: raw = (before ++ [':']) ++ raw by simp]
    exact List.drop_left' (by simp)
  simp only [substring, List.length_append, List.length_cons, h1, min_self, max_eq_right,
    Nat.le_add_right, le_refl]
  rw [h3, max_eq_right (by omega), h2, List.take_length]

/-- The first colon of a line splits it in one way only. -/
theorem entryLine_unique {line : List Char} {key key2 : String} {raw raw2 : List Char}
    (h : Spec.IsEntryLine line key raw) (h2 : Spec.IsEntryLine line key2 raw2) :
    key = key2 ∧ raw = raw2 := by
  obtain ⟨before, hline, hno, _, _, hkey⟩ := h
  obtain ⟨before2, hline2, hno2, _, _, hkey2⟩ := h2
  have hi := indexOfColon_split before raw hno
  have hi2 := indexOfColon_split before2 raw2 hno2
  rw [← hline] at hi
  rw [← hline2, hi] at hi2
  have hlen : before.length = before2.length := Option.some.inj hi2
  have happ : before ++ ':' :: raw = before2 ++ ':' :: raw2 := hline.symm.trans hline2
  have hb : before = before2 := List.append_inj_left happ hlen
  subst hb
  have hr : ':' :: raw = ':' :: raw2 := List.append_cancel_left happ
  exact ⟨by rw [hkey, hkey2], List.tail_eq_of_cons_eq hr⟩

/-- The callback on a line that is an entry: the unquoted value is assigned to the key. -/
theorem addLine_of_entry {line : List Char} {key : String} {raw : List Char}
    (h : Spec.IsEntryLine line key raw) (metadata : List (String × JSValue)) :
    addLine metadata line
      = assignString key (String.mk (unquote (trim raw))) metadata := by
  obtain ⟨before, hline, hno, hne, hhash, hkey⟩ := h
  have hi := indexOfColon_split before raw hno
  have hpos : 0 < before.length := List.length_pos.mpr hne
  subst hline
  unfold addLine
  rw [hi]
  simp only [hpos, hhash, ne_eq, not_false_eq_true, and_self, if_true, substring_before,
    substring_after, hkey]

/-- The callback on a line that is no entry leaves the object as it is. -/
theorem addLine_of_no_entry {line : List Char}
    (h : ∀ key raw, ¬ Spec.IsEntryLine line key raw) (metadata : List (String × JSValue)) :
    addLine metadata line = metadata := by
  unfold addLine
  cases hi : indexOfColon line with
  | none => rfl
  | some i =>
    obtain ⟨before, raw, hline, hno, hlen⟩ := indexOfColon_eq_some hi
    simp only
    split_ifs with hc
    · exfalso
      refine h (String.mk (trim before)) raw ⟨before, hline, hno, ?_, hc.2, rfl⟩
      intro hb
      rw [hb] at hlen
      simp at hlen
      omega
    · rfl

theorem assoc_replaceProp (key k : String) (v : JSValue) (metadata : List (String × JSValue))
    (h : (assoc k metadata).isSome = true) :
    assoc key (replaceProp k v metadata) = if k = key then some v else assoc key metadata := by
  induction metadata with
  | nil => simp [assoc] at h
  | cons kv rest ih =>
    obtain ⟨k0, v0⟩ := kv
    by_cases h0 : k0 = k
    · subst h0
      by_cases h1 : k0 = key <;> simp [replaceProp, assoc, h1]
    · have hrest : (assoc k rest).isSome = true := by simpa [assoc, h0] using h
      by_cases h1 : k0 = key
      · subst h1
        have : ¬ k = k0 := fun h => h0 h.symm
        simp [replaceProp, assoc, h0, this]
      · simp [replaceProp, assoc, h0, h1, ih hrest]

theorem assoc_insertIndexProp (key k : String) (i : Nat) (v : JSValue)
    (metadata : List (String × JSValue)) (h : assoc k metadata = none) :
    assoc key (insertIndexProp i k v metadata)
      = if k = key then some v else assoc key metadata := by
  induction metadata with
  | nil => simp [insertIndexProp, assoc]
  | cons kv rest ih =>
    obtain ⟨k0, v0⟩ := kv
    have h0 : ¬ k0 = k := by
      intro hk
      simp [assoc, hk] at h
    have hrest : assoc k rest = none := by simpa [assoc, h0] using h
    unfold insertIndexProp
    split
    · split
      · by_cases h1 : k0 = key
        · subst h1
          have : ¬ k = k0 := fun h => h0 h.symm
          simp [assoc, this]
        · simp [assoc, h1, ih hrest]
      · by_cases h2 : k = key <;> simp [assoc, h2]
    · by_cases h2 : k = key <;> simp [assoc, h2]

theorem assoc_append (key k : String) (v : JSValue) (metadata : List (String × JSValue))
    (h : assoc k metadata = none) :
    assoc key (metadata ++ [(k, v)]) = if k = key then some v else assoc key metadata := by
  induction metadata with
  | nil => simp [assoc]
  | cons kv rest ih =>
    obtain ⟨k0, v0⟩ := kv
    have h0 : ¬ k0 = k := by
      intro hk
      simp [assoc, hk] at h
    have hrest : assoc k rest = none := by simpa [assoc, h0] using h
    by_cases h1 : k0 = key
    · subst h1
      have : ¬ k = k0 := fun h => h0 h.symm
      simp [assoc, this]
    · simp [assoc, h1, ih hrest]

theorem assoc_setProp (key k : String) (v : JSValue) (metadata : List (String × JSValue)) :
    assoc key (setProp k v metadata) = if k = key then some v else assoc key metadata := by
  unfold setProp
  cases hk : assoc k metadata with
  | some w =>
    simp only [Option.isSome_some, if_true]
    exact assoc_replaceProp key k v metadata (by simp [hk])
  | none =>
    simp only [Option.isSome_none, Bool.false_eq_true, if_false]
    split
    · exact assoc_insertIndexProp key k _ v metadata hk
    · exact assoc_append key k v metadata hk

/-- What an assignment leaves under a key other than `__proto__`. -/
theorem assoc_assignString (key k value : String) (metadata : List (String × JSValue))
    (hkey : key ≠ "__proto__") :
    assoc key (assignString k value metadata)
      = if k = key then some (.str value) else assoc key metadata := by
  unfold assignString
  split_ifs with h1 h2 h2
  · exact absurd (h2 ▸ h1.1) hkey
  · rfl
  · rw [assoc_setProp, if_pos h2]
  · rw [assoc_setProp, if_neg h2]

theorem assoc_addLine_of_key {line : List Char} {key : String} {raw : List Char}
    (h : Spec.IsEntryLine line key raw) (hkey : key ≠ "__proto__")
    (metadata : List (String × JSValue)) :
    assoc key (addLine metadata line) = some (.str (String.mk (unquote (trim raw)))) := by
  rw [addLine_of_entry h, assoc_assignString _ _ _ _ hkey]
  simp

theorem assoc_addLine_of_other {line : List Char} {key : String}
    (h : ∀ raw, ¬ Spec.IsEntryLine line key raw) (hkey : key ≠ "__proto__")
    (metadata : List (String × JSValue)) :
    assoc key (addLine metadata line) = assoc key metadata := by
  by_cases hex : ∃ k raw, Spec.IsEntryLine line k raw
  · obtain ⟨k, raw, hk⟩ := hex
    have hne : ¬ k = key := fun hkk => h raw (hkk ▸ hk)
    rw [addLine_of_entry hk, assoc_assignString _ _ _ _ hkey]
    simp [hne]
  · rw [addLine_of_no_entry (fun k raw hk => hex ⟨k, raw, hk⟩)]

/-- What the object holds under a key other than `__proto__` after the lines: the value of
the last line that is an entry for the key, or what it held before when no line is. -/
theorem assoc_foldl_addLine (lines : List (List Char)) (metadata : List (String × JSValue))
    (key : String) (v : JSValue) (hkey : key ≠ "__proto__") :
    assoc key (lines.foldl addLine metadata) = some v
      ↔ (∃ earlier line later raw, lines = earlier ++ line :: later
            ∧ Spec.IsEntryLine line key raw ∧ v = .str (String.mk (unquote (trim raw)))
            ∧ ∀ l ∈ later, ∀ raw2, ¬ Spec.IsEntryLine l key raw2)
        ∨ (assoc key metadata = some v ∧ ∀ l ∈ lines, ∀ raw2, ¬ Spec.IsEntryLine l key raw2) := by
  induction lines generalizing metadata with
  | nil => simp
  | cons line rest ih =>
    rw [List.foldl_cons, ih]
    constructor
    · rintro (⟨earlier, l, later, raw, hrest, hentry, hv, hlast⟩ | ⟨hassoc, hnone⟩)
      · exact Or.inl ⟨line :: earlier, l, later, raw, by rw [hrest]; rfl, hentry, hv, hlast⟩
      · by_cases hex : ∃ raw, Spec.IsEntryLine line key raw
        · obtain ⟨raw, hraw⟩ := hex
          rw [assoc_addLine_of_key hraw hkey] at hassoc
          exact Or.inl ⟨[], line, rest, raw, rfl, hraw, (Option.some.inj hassoc).symm, hnone⟩
        · have hno : ∀ raw, ¬ Spec.IsEntryLine line key raw := fun raw hr => hex ⟨raw, hr⟩
          rw [assoc_addLine_of_other hno hkey] at hassoc
          refine Or.inr ⟨hassoc, ?_⟩
          intro l hl
          rcases List.mem_cons.mp hl with h1 | h1
          · rw [h1]
            exact hno
          · exact hnone l h1
    · rintro (⟨earlier, l, later, raw, hlines, hentry, hv, hlast⟩ | ⟨hassoc, hnone⟩)
      · cases earlier with
        | nil =>
          have hl : line = l := by
            have := List.head_eq_of_cons_eq hlines
            exact this
          have hr : rest = later := List.tail_eq_of_cons_eq hlines
          subst hl
          subst hr
          exact Or.inr ⟨by rw [assoc_addLine_of_key hentry hkey, hv], hlast⟩
        | cons e earlier2 =>
          have hr : rest = earlier2 ++ l :: later := List.tail_eq_of_cons_eq hlines
          exact Or.inl ⟨earlier2, l, later, raw, hr, hentry, hv, hlast⟩
      · have hno : ∀ raw, ¬ Spec.IsEntryLine line key raw := hnone line (List.mem_cons_self _ _)
        refine Or.inr ⟨by rw [assoc_addLine_of_other hno hkey]; exact hassoc, ?_⟩
        intro l hl
        exact hnone l (List.mem_cons_of_mem _ hl)

/-! ## Frontmatter block -/

theorem fenceClose_isPrefixOf_iff (s : List Char) :
    [newline, '-', '-', '-'].isPrefixOf s = true ↔ ∃ rest, s = Spec.fenceClose ++ rest := by
  rw [List.isPrefixOf_iff_prefix]
  constructor
  · rintro ⟨rest, h⟩
    exact ⟨rest, h.symm⟩
  · rintro ⟨rest, h⟩
    exact ⟨rest, h.symm⟩

theorem fenceOpen_isPrefixOf_iff (s : List Char) :
    ['-', '-', '-', newline].isPrefixOf s = true ↔ ∃ rest, s = Spec.fenceOpen ++ rest := by
  rw [List.isPrefixOf_iff_prefix]
  constructor
  · rintro ⟨rest, h⟩
    exact ⟨rest, h.symm⟩
  · rintro ⟨rest, h⟩
    exact ⟨rest, h.symm⟩

/-- The group of the pattern is the shortest text in front of a closing fence. -/
theorem untilFence_eq_some_iff (s block : List Char) :
    untilFence s = some block
      ↔ (∃ rest, s = block ++ Spec.fenceClose ++ rest)
          ∧ ∀ block2 rest2, s = block2 ++ Spec.fenceClose ++ rest2
              → block.length ≤ block2.length := by
  induction s generalizing block with
  | nil =>
    simp only [untilFence]
    constructor
    · intro h
      cases h
    · rintro ⟨⟨rest, h⟩, _⟩
      have := congrArg List.length h
      simp [Spec.fenceClose] at this
      omega
  | cons c t ih =>
    unfold untilFence
    by_cases hp : [newline, '-', '-', '-'].isPrefixOf (c :: t) = true
    · rw [if_pos hp]
      obtain ⟨rest0, h0⟩ := (fenceClose_isPrefixOf_iff _).mp hp
      constructor
      · intro h
        have hb : block = [] := (Option.some.inj h).symm
        subst hb
        exact ⟨⟨rest0, by simpa using h0⟩, fun _ _ _ => Nat.zero_le _⟩
      · rintro ⟨_, hmin⟩
        have := hmin [] rest0 (by simpa using h0)
        have hb : block = [] := List.length_eq_zero.mp (Nat.le_zero.mp this)
        rw [hb]
    · rw [if_neg hp]
      have hnot : ∀ rest, c :: t ≠ Spec.fenceClose ++ rest := fun rest h =>
        hp ((fenceClose_isPrefixOf_iff _).mpr ⟨rest, h⟩)
      constructor
      · intro h
        obtain ⟨b, hb, hbl⟩ := Option.map_eq_some'.mp h
        subst hbl
        obtain ⟨⟨rest, hrest⟩, hmin⟩ := (ih b).mp hb
        refine ⟨⟨rest, by rw [hrest]; simp⟩, ?_⟩
        intro block2 rest2 h2
        cases block2 with
        | nil => exact absurd (by simpa using h2) (hnot rest2)
        | cons c2 b2 =>
          have ht : t = b2 ++ Spec.fenceClose ++ rest2 := by
            have := List.tail_eq_of_cons_eq h2
            simpa using this
          have := hmin b2 rest2 ht
          simp only [List.length_cons]
          omega
      · rintro ⟨⟨rest, hrest⟩, hmin⟩
        cases block with
        | nil => exact absurd (by simpa using hrest) (hnot rest)
        | cons c2 b =>
          have hc : c = c2 := List.head_eq_of_cons_eq hrest
          have ht : t = b ++ Spec.fenceClose ++ rest := by
            have := List.tail_eq_of_cons_eq hrest
            simpa using this
          subst hc
          have hb : untilFence t = some b := by
            rw [ih b]
            refine ⟨⟨rest, ht⟩, ?_⟩
            intro block2 rest2 h2
            have := hmin (c :: block2) rest2 (by rw [h2]; simp)
            simp only [List.length_cons] at this
            omega
          rw [hb]
          rfl

/-- The match of the frontmatter pattern finds the frontmatter block, and only it. -/
theorem matchFrontmatter_eq_some_iff (content block : List Char) :
    matchFrontmatter content = some block ↔ Spec.IsBlock content block := by
  unfold matchFrontmatter Spec.IsBlock
  by_cases hp : ['-', '-', '-', newline].isPrefixOf content = true
  · rw [if_pos hp]
    obtain ⟨s, hs⟩ := (fenceOpen_isPrefixOf_iff _).mp hp
    subst hs
    have hdrop : (Spec.fenceOpen ++ s).drop 4 = s := rfl
    rw [hdrop, untilFence_eq_some_iff]
    constructor
    · rintro ⟨⟨rest, hrest⟩, hmin⟩
      refine ⟨⟨rest, by rw [hrest]; simp [List.append_assoc]⟩, ?_⟩
      intro block2 rest2 h2
      apply hmin block2 rest2
      have : Spec.fenceOpen ++ s = Spec.fenceOpen ++ (block2 ++ Spec.fenceClose ++ rest2) := by
        rw [h2]
        simp [List.append_assoc]
      exact List.append_cancel_left this
    · rintro ⟨⟨rest, hrest⟩, hmin⟩
      have hs : s = block ++ Spec.fenceClose ++ rest := by
        have : Spec.fenceOpen ++ s = Spec.fenceOpen ++ (block ++ Spec.fenceClose ++ rest) := by
          rw [hrest]
          simp [List.append_assoc]
        exact List.append_cancel_left this
      refine ⟨⟨rest, hs⟩, ?_⟩
      intro block2 rest2 h2
      apply hmin block2 rest2
      rw [h2]
      simp [List.append_assoc]
  · rw [if_neg hp]
    constructor
    · intro h
      cases h
    rintro ⟨⟨rest, hrest⟩, _⟩
    exact absurd ((fenceOpen_isPrefixOf_iff _).mpr ⟨block ++ Spec.fenceClose ++ rest, by
      rw [hrest]; simp [List.append_assoc]⟩) hp

theorem splitLines_ne_nil (block : List Char) : splitLines block ≠ [] := by
  cases block with
  | nil => simp [splitLines]
  | cons c rest =>
    unfold splitLines
    split_ifs
    · simp
    · split <;> simp

/-- The lines `split` cuts a text into are its lines. -/
theorem splitLines_isLines (block : List Char) : Spec.IsLines block (splitLines block) := by
  refine ⟨splitLines_ne_nil block, ?_, ?_⟩
  · induction block with
    | nil => rfl
    | cons c rest ih =>
      unfold splitLines
      by_cases hc : c = newline
      · rw [if_pos hc]
        cases hs : splitLines rest with
        | nil => exact absurd hs (splitLines_ne_nil rest)
        | cons l ls =>
          rw [hs] at ih
          simp only [Spec.joinLines, List.nil_append, ih, hc]
      · rw [if_neg hc]
        cases hs : splitLines rest with
        | nil => exact absurd hs (splitLines_ne_nil rest)
        | cons l ls =>
          rw [hs] at ih
          cases ls with
          | nil =>
            simp only [Spec.joinLines] at ih ⊢
            rw [ih]
          | cons l2 ls2 =>
            simp only [Spec.joinLines] at ih ⊢
            rw [← ih]
            rfl
  · induction block with
    | nil => simp [splitLines]
    | cons c rest ih =>
      unfold splitLines
      by_cases hc : c = newline
      · rw [if_pos hc]
        intro line hline
        rcases List.mem_cons.mp hline with h | h
        · rw [h]
          simp
        · exact ih line h
      · rw [if_neg hc]
        cases hs : splitLines rest with
        | nil => exact absurd hs (splitLines_ne_nil rest)
        | cons l ls =>
          rw [hs] at ih
          intro line hline
          rcases List.mem_cons.mp hline with h | h
          · rw [h]
            intro hmem
            rcases List.mem_cons.mp hmem with h1 | h1
            · exact hc h1.symm
            · exact ih l (List.mem_cons_self _ _) h1
          · exact ih line (List.mem_cons_of_mem _ h)

theorem unquote_quoted (q : Char) (inner : List Char)
    (hq : q = doubleQuote ∨ q = singleQuote) :
    unquote (q :: (inner ++ [q])) = inner := by
  have hcond : ((q :: (inner ++ [q])).head? = some doubleQuote
        ∧ (q :: (inner ++ [q])).getLast? = some doubleQuote)
      ∨ ((q :: (inner ++ [q])).head? = some singleQuote
        ∧ (q :: (inner ++ [q])).getLast? = some singleQuote) := by
    have hlast : (q :: (inner ++ [q])).getLast? = some q := by
      rw [show q :: (inner ++ [q]) = (q :: inner) ++ [q] by simp, List.getLast?_append]
      simp
    rcases hq with h | h
    · exact Or.inl ⟨by simp [h], by rw [hlast, h]⟩
    · exact Or.inr ⟨by simp [h], by rw [hlast, h]⟩
  unfold unquote
  rw [if_pos hcond]
  have hlen : (q :: (inner ++ [q])).length - 1 = inner.length + 1 := by simp
  have h1 : min 1 (q :: (inner ++ [q])).length = 1 := by simp
  have h2 : min (inner.length + 1) (q :: (inner ++ [q])).length = inner.length + 1 := by simp
  simp only [substring, hlen, h1, h2]
  rw [min_eq_left (by omega), max_eq_right (by omega)]
  simp

theorem unquote_plain (value : List Char)
    (h : ∀ q, (q = doubleQuote ∨ q = singleQuote)
      → ¬ (value.head? = some q ∧ value.getLast? = some q)) :
    unquote value = value := by
  unfold unquote
  rw [if_neg]
  rintro (hd | hs)
  · exact h doubleQuote (Or.inl rfl) hd
  · exact h singleQuote (Or.inr rfl) hs

/-! ## Frontmatter extraction -/

/-- C21, as stated, fails. In `fileClosedByRule` no line after the first is `---` (the third
line is `---draft`), yet the result is not empty: it binds `title`. In
`fileWithEarlyDashes` the line right after the opening one is `---`, yet the block does
not end there: the result binds `title` from the line after it. In `fileWithLoneQuote`
the value is a lone double quote, which starts and ends with the same quote character,
and it is kept as it is. In `fileWithProtoKey` the one line of the block has a colon at
position 9 and is no comment, yet the result is empty: it does not map `__proto__`. -/
theorem frontmatter_edge_cases :
    splitLines fileClosedByRule.data
        = ["---".data, "title: Guide".data, "---draft".data, "".data]
      ∧ extractFrontmatter fileClosedByRule = [("title", .str "Guide")]
      ∧ extractFrontmatter fileClosedByRule ≠ []
      ∧ splitLines fileWithEarlyDashes.data
        = ["---".data, "---".data, "title: Guide".data, "---".data, "".data]
      ∧ extractFrontmatter fileWithEarlyDashes = [("title", .str "Guide")]
      ∧ extractFrontmatter fileWithLoneQuote = [("k", .str (String.mk [doubleQuote]))]
      ∧ unquote [doubleQuote] = [doubleQuote]
      ∧ matchFrontmatter fileWithProtoKey.data = some "__proto__: x".data
      ∧ indexOfColon "__proto__: x".data = some 9
      ∧ extractFrontmatter fileWithProtoKey = [] := by
  refine ⟨rfl, rfl, ?_, rfl, rfl, rfl, rfl, rfl, rfl, rfl⟩
  intro h
  have h2 : extractFrontmatter fileClosedByRule = [("title", .str "Guide")] := rfl
  rw [h2] at h
  cases h

/-- C21, amended: `extractFrontmatter` returns an empty mapping when the content has no
frontmatter block, that is, unless the content is the line `---`, then a block, then a line
that starts with `---`; the block is the shortest such text. Otherwise, with the block cut
into its lines, the result holds a value under a key other than `__proto__` exactly when
some line of the block has a colon at a position greater than 0, is not a `#` comment and
has that key as the trimmed text before its first colon; the value is the one of the last
such line: the
trimmed text after the first colon, unquoted. Unquoting removes the first and the last
character of a value of at least two characters that starts and ends with the same quote
character (double or single) and leaves unchanged a value that does not start and end
with the same quote character. -/
theorem extractFrontmatter_entries (content : String) :
    ((∀ block, ¬ Spec.IsBlock content.data block) → extractFrontmatter content = [])
      ∧ (∀ block, Spec.IsBlock content.data block →
          Spec.IsLines block (splitLines block)
            ∧ ∀ key v, key ≠ "__proto__" →
                (assoc key (extractFrontmatter content) = some v
                  ↔ ∃ earlier line later raw, splitLines block = earlier ++ line :: later
                      ∧ Spec.IsEntryLine line key raw
                      ∧ v = .str (String.mk (unquote (trim raw)))
                      ∧ ∀ l ∈ later, ∀ raw2, ¬ Spec.IsEntryLine l key raw2))
      ∧ (∀ q inner, (q = doubleQuote ∨ q = singleQuote)
          → unquote (q :: (inner ++ [q])) = inner)
      ∧ (∀ value, (∀ q, (q = doubleQuote ∨ q = singleQuote)
            → ¬ (value.head? = some q ∧ value.getLast? = some q))
          → unquote value = value) := by
  refine ⟨?_, ?_, fun q inner hq => unquote_quoted q inner hq, unquote_plain⟩
  · intro hno
    cases hm : matchFrontmatter content.data with
    | none => simp [extractFrontmatter, hm]
    | some block => exact absurd ((matchFrontmatter_eq_some_iff _ _).mp hm) (hno block)
  · intro block hblock
    have hm := (matchFrontmatter_eq_some_iff _ _).mpr hblock
    refine ⟨splitLines_isLines block, ?_⟩
    intro key v hkey
    have hdef : extractFrontmatter content = (splitLines block).foldl addLine [] := by
      simp [extractFrontmatter, hm]
    rw [hdef, assoc_foldl_addLine _ _ _ _ hkey]
    constructor
    · rintro (h | ⟨h, _⟩)
      · exact h
      · simp [assoc] at h
    · exact Or.inl

/-- Witness of amended C21: in `fileWithFrontmatter` the second line of the block binds
`author` to its value without the quotes. -/
theorem extractFrontmatter_entries_witness :
    assoc "author" (extractFrontmatter fileWithFrontmatter) = some (.str "File Author") :=
  ((extractFrontmatter_entries fileWithFrontmatter).2.1
      "title: From File\nauthor: \"File Author\"".data
      ((matchFrontmatter_eq_some_iff _ _).mp rfl)).2 "author" (.str "File Author")
      (by decide) |>.mpr
    ⟨["title: From File".data], "author: \"File Author\"".data, [], " \"File Author\"".data,
      rfl, ⟨"author".data, rfl, by decide, by decide, by decide, rfl⟩, rfl,
      fun _ h => absurd h (List.not_mem_nil _)⟩

end Branding
